import Mathlib

/-!
A shallow embedding of `src/RingBuffer.c` (repository MPMCRB): a bounded
in-place ring-buffer allocator for variable-length records.

Modelling conventions.

* Addresses are byte offsets into the cache region (`rb->cfg.cache` is offset 0).
  A node pointer is the offset of the node header; the token pointer of a node
  is recovered from the node pointer by a fixed offset in C (`CONTAINER_FOR`),
  so tokens are identified with their node offsets here.
* The node memory is a finite map from offsets to node records (`Heap`).
  C mutates fields in place; every C assignment becomes a fetch-modify-store
  on the map, in the statement order of the source, so aliasing behaves as in C.
  Deleted nodes stay in the map, exactly as C leaves the bytes of an unlinked
  node in place (several observable behaviours of the source depend on stale
  nodes being readable).
* `NULL` pointers are `Option.none`.  Where the C code dereferences a pointer
  that can be `NULL` on some path, the model returns `none` (undefined
  behaviour); operations therefore return `Option`.
* Sizes are `Nat`.  The two places where the C code subtracts pointers and the
  result is used as an unsigned 64-bit quantity use `usub64`, subtraction
  modulo 2^64, to keep the source's wrap-around comparisons.
* On LP64 (8-byte pointers, 8-byte `size_t`, 4-byte `enum` padded to the next
  8-byte field): `sizeof(ring_buffer_node_t)` = 16 (chain_pos) + 16 (chain_time)
  + 8 (state, padded) + 8 (token.len, flexible data[] adds 0) = 48, and
  `sizeof(struct ring_buffer)` = 16 (cfg) + 8 (counter) + 24 (three pointers)
  = 48.
* Ghost instrumentation (clearly marked below, never read by any operation):
  every record created by a reserve gets a serial number `uid`, and the buffer
  carries history lists `consumedH` (uids returned by consume, in order),
  `confirmedH` (uids write-confirmed, in order) and `evictedH` (uids destroyed
  by overwrite, in order).  These exist only so that specification-level
  claims about operation sequences can be stated.
-/

/-- 2^64, the modulus of `size_t` / pointer arithmetic on LP64. -/
def UINT64 : Nat := 2 ^ 64

/-- Unsigned 64-bit subtraction: the value of `(size_t)(a - b)` in C. -/
def usub64 (a b : Nat) : Nat := (a + UINT64 - b) % UINT64

/-- `ALIGN_SIZE(size, align)` from RingBuffer.c line 3.  The C macro rounds up
with the power-of-two bit mask `(size + align-1) & ~(align-1)` over
`uintptr_t`; for the power-of-two alignment 8 used throughout this equals
rounding up to the next multiple of `align` whenever `size + 7` does not
overflow, which the theorem `ALIGN_SIZE_eq_mask` below proves
(`~(8-1)` over 64 bits is `2^64 - 8`). -/
def ALIGN_SIZE (size align : Nat) : Nat := (size + (align - 1)) / align * align

/-- `sizeof(ring_buffer_node_t)` on LP64 (layout in the header comment). -/
def sizeof_ring_buffer_node : Nat := 48

/-- `sizeof(struct ring_buffer)` on LP64 (layout in the header comment). -/
def sizeof_struct_ring_buffer : Nat := 48

/-- `ring_buffer_node_state_t` from RingBuffer.c lines 7-12. -/
inductive ring_buffer_node_state
| writing
| committed
| reading
deriving DecidableEq, Repr

/-- `ring_buffer_node_t` from RingBuffer.c lines 14-30.  `p_forward` and
`p_backward` are the circular position chain (never `NULL` in C, a plain
offset here); `p_newer` and `p_older` are the time chain (`NULL` at HEAD
resp. TAIL).  `len` is `token.len`.  `uid` is ghost instrumentation. -/
structure ring_buffer_node where
  p_forward : Nat
  p_backward : Nat
  p_newer : Option Nat
  p_older : Option Nat
  state : ring_buffer_node_state
  len : Nat
  uid : Nat
deriving DecidableEq, Repr

/-- The content of memory the model has never written: an arbitrary fixed
node record (reading junk memory in C).  No reachable execution of the
claims below depends on its value. -/
def junk_node : ring_buffer_node :=
  { p_forward := 0, p_backward := 0, p_newer := none, p_older := none,
    state := ring_buffer_node_state.writing, len := 0, uid := 0 }

/-- The node memory: offset-keyed association list. -/
abbrev Heap : Type := List (Nat × ring_buffer_node)

/-- Read the node at an offset (reading a node C never wrote yields junk). -/
def hget : Heap → Nat → ring_buffer_node
  | [], _ => junk_node
  | p :: tl, o => if p.1 = o then p.2 else hget tl o

/-- Store a node at an offset. -/
def hset : Heap → Nat → ring_buffer_node → Heap
  | [], o, n => [(o, n)]
  | p :: tl, o, n => if p.1 = o then (o, n) :: tl else p :: hset tl o n

/-- Number of entries of the heap (used only as recursion fuel). -/
def hlen (m : Heap) : Nat := List.length (m : List (Nat × ring_buffer_node))

/-- `struct ring_buffer` from RingBuffer.c lines 32-48, plus the ghost fields
described in the header comment.  `oldeest_reserve` models the write to the
misspelled member in `_ring_buffer_commit_for_consume_discard` (line 382 of
the source): the field is written on that path and read nowhere, which is the
only consistent reading of an assignment to a member the struct does not
have. -/
structure RB where
  capacity : Nat
  lost : Nat
  nodes : Heap
  HEAD : Option Nat
  TAIL : Option Nat
  oldest_reserve : Option Nat
  oldeest_reserve : Option Nat
  -- ghost fields (specification only, never read by the operations):
  nextUid : Nat
  consumedH : List Nat
  confirmedH : List Nat
  evictedH : List Nat
deriving DecidableEq, Repr

/-- An arbitrary buffer, used only to give `Option.getD` a default. -/
def junk_rb : RB :=
  { capacity := 0, lost := 0, nodes := [], HEAD := none, TAIL := none,
    oldest_reserve := none, oldeest_reserve := none,
    nextUid := 0, consumedH := [], confirmedH := [], evictedH := [] }

/-- `ring_buffer_flag_overwrite` (RingBuffer.h). -/
def ring_buffer_flag_overwrite : Nat := 1

/-- `ring_buffer_flag_discard` (RingBuffer.h). -/
def ring_buffer_flag_discard : Nat := 2

/-- `ring_buffer_flag_consume_on_error` (RingBuffer.h). -/
def ring_buffer_flag_consume_on_error : Nat := 4

/-- `_ring_buffer_node_cost` (RingBuffer.c lines 55-58). -/
def _ring_buffer_node_cost (len : Nat) : Nat :=
  ALIGN_SIZE (sizeof_ring_buffer_node + len) 8

/-- `ring_buffer_node_cost` (RingBuffer.c lines 402-405). -/
def ring_buffer_node_cost (len : Nat) : Nat := _ring_buffer_node_cost len

/-- `ring_buffer_heap_cost` (RingBuffer.c lines 396-400). -/
def ring_buffer_heap_cost : Nat := ALIGN_SIZE sizeof_struct_ring_buffer 8

/-- `_ring_buffer_reinit` (RingBuffer.c lines 60-65). -/
def _ring_buffer_reinit (rb : RB) : RB :=
  { rb with oldest_reserve := none, HEAD := none, TAIL := none }

/-- `_ring_buffer_reserve_empty` (RingBuffer.c lines 74-100).  Returns the
token (an offset) or `none`, and the updated buffer.  The new node is placed
at the cache base, offset 0.  Ghost: the fresh record gets uid `rb.nextUid`. -/
def _ring_buffer_reserve_empty (rb : RB) (data_len node_size : Nat) :
    Option Nat × RB :=
  if node_size > rb.capacity then (none, rb)
  else
    let n : ring_buffer_node :=
      { p_forward := 0, p_backward := 0, p_newer := none, p_older := none,
        state := ring_buffer_node_state.writing, len := data_len,
        uid := rb.nextUid }
    (some 0,
      { rb with nodes := hset rb.nodes 0 n,
                HEAD := some 0, TAIL := some 0, oldest_reserve := some 0,
                nextUid := rb.nextUid + 1 })

/-- `_ring_buffer_update_time_for_new_node` (RingBuffer.c lines 102-111).
Dereferences `rb->HEAD` (line 107 writes through it), hence `Option`. -/
def _ring_buffer_update_time_for_new_node (rb : RB) (nn : Nat) : Option RB :=
  match rb.HEAD with
  | none => none
  | some h =>
    let m1 := hset rb.nodes nn
      { hget rb.nodes nn with p_newer := none, p_older := some h }
    let m2 := hset m1 h { hget m1 h with p_newer := some nn }
    some { rb with nodes := m2, HEAD := some nn }

/-- The `while (1)` walk of `_ring_buffer_reserve_overwrite` (RingBuffer.c
lines 142-156).  Arguments mirror the loop state: current `node_end`,
`sum_size` so far, `lost_node` so far.  Returns
`(node_end, sum_size, lost_node, visited)`; `visited` is ghost (the offsets
of the run, for the eviction history).  `fuel` bounds the recursion; the
caller passes more fuel than there are nodes, and since each absorbed
neighbour must lie at a strictly higher address than the previous one the C
loop can never visit more distinct nodes than exist, so the bound is never
the reason the walk stops on states the claims use. -/
def _ring_buffer_overwrite_walk (m : Heap) (node_size : Nat) :
    Nat → Nat → Nat → Nat → List Nat → Nat × Nat × Nat × List Nat
  | fuel, node_end, sum0, lost_node, visited =>
    let sum := sum0 + _ring_buffer_node_cost (hget m node_end).len
    let nxt := (hget m node_end).p_forward
    match fuel with
    | 0 => (node_end, sum, lost_node, visited)
    | fuel' + 1 =>
      if sum < node_size
          ∧ (hget m nxt).state = ring_buffer_node_state.committed
          ∧ (hget m node_end).p_newer = some nxt
          ∧ node_end < nxt then
        _ring_buffer_overwrite_walk m node_size fuel' nxt sum (lost_node + 1)
          (visited ++ [nxt])
      else
        (node_end, sum, lost_node, visited)

/-- `_ring_buffer_reserve_overwrite` (RingBuffer.c lines 116-188).
Outer `none` is undefined behaviour: on the success path the source
dereferences `node_end->chain_time.p_newer` (line 179) and, through
`_ring_buffer_update_time_for_new_node`, `rb->HEAD`; when either is `NULL`
the C program crashes.  Note two faithful peculiarities of the source: the
reused `node_start` keeps whatever state it had (the code never sets it back
to `writing`), and `rb->TAIL` is never updated even when `node_start` was the
TAIL.  Ghost: `lost`-counted uids are appended to `evictedH`, and the reused
slot gets a fresh uid. -/
def _ring_buffer_reserve_overwrite (rb : RB) (data_len node_size : Nat) :
    Option (Option Nat × RB) :=
  match rb.oldest_reserve with
  | none => some (none, rb)
  | some orf =>
    if (hget rb.nodes orf).state ≠ ring_buffer_node_state.committed then
      some (none, rb)
    else if (hget rb.nodes orf).p_forward = orf
        ∧ (hget rb.nodes orf).p_backward = orf then
      -- only one node in the ring buffer (lines 125-134)
      if rb.capacity ≥ node_size then
        some (_ring_buffer_reserve_empty
          (_ring_buffer_reinit
            { rb with lost := rb.lost + 1,
                      evictedH := rb.evictedH ++ [(hget rb.nodes orf).uid] })
          data_len node_size)
      else some (none, rb)
    else
      let w := _ring_buffer_overwrite_walk rb.nodes node_size
        (hlen rb.nodes + 1) orf 0 1 [orf]
      if w.2.1 < node_size then some (none, rb)
      else
        match (hget rb.nodes w.1).p_newer with
        | none => none   -- line 179 dereferences NULL
        | some _ =>
          -- line 168: oldest_reserve moves past the run
          let rb1 := { rb with oldest_reserve := (hget rb.nodes w.1).p_newer }
          -- lines 171-172: position chain splice
          let m1 := hset rb1.nodes orf
            { hget rb1.nodes orf with
                p_forward := (hget rb1.nodes w.1).p_forward }
          let m2 := hset m1 (hget m1 w.1).p_forward
            { hget m1 ((hget m1 w.1).p_forward) with p_backward := orf }
          -- lines 175-178: predecessor of the run, if any, skips the run
          let m3 :=
            match (hget m2 orf).p_older with
            | none => m2
            | some po =>
              hset m2 po { hget m2 po with p_newer := (hget m2 w.1).p_newer }
          -- line 179 (p_newer of the run end is known non-NULL here)
          let m4 :=
            match (hget m3 w.1).p_newer with
            | none => m3   -- unreachable: checked above, splices kept p_newer
            | some enw =>
              hset m3 enw { hget m3 enw with p_older := (hget m3 orf).p_older }
          match _ring_buffer_update_time_for_new_node
              { rb1 with nodes := m4 } orf with
          | none => none
          | some rb2 =>
            -- line 182 and line 185, plus ghost bookkeeping
            let rb3 :=
              { rb2 with
                  lost := rb2.lost + w.2.2.1,
                  nodes := hset rb2.nodes orf
                    { hget rb2.nodes orf with len := data_len,
                                              uid := rb.nextUid },
                  nextUid := rb.nextUid + 1,
                  evictedH := rb.evictedH
                    ++ List.map (fun o => (hget rb.nodes o).uid) w.2.2.2 }
            some (some orf, rb3)

/-- `_ring_buffer_insert_new_node` (RingBuffer.c lines 190-203).  Dereferences
`rb->HEAD` (lines 197-198), hence `Option`.  Ghost: fresh uid. -/
def _ring_buffer_insert_new_node (rb : RB) (nn data_len : Nat) : Option RB :=
  match rb.HEAD with
  | none => none
  | some h =>
    -- lines 193-194 (uid is ghost)
    let m0 := hset rb.nodes nn
      { hget rb.nodes nn with state := ring_buffer_node_state.writing,
                              len := data_len, uid := rb.nextUid }
    -- lines 197-198
    let m1 := hset m0 nn
      { hget m0 nn with p_forward := (hget m0 h).p_forward, p_backward := h }
    -- line 199
    let m2 := hset m1 (hget m1 nn).p_forward
      { hget m1 ((hget m1 nn).p_forward) with p_backward := nn }
    -- line 200
    let m3 := hset m2 (hget m2 nn).p_backward
      { hget m2 ((hget m2 nn).p_backward) with p_forward := nn }
    _ring_buffer_update_time_for_new_node
      { rb with nodes := m3, nextUid := rb.nextUid + 1 } nn

/-- `_ring_buffer_reserve_none_empty` (RingBuffer.c lines 205-243).  The two
`size_t` casts of pointer differences (lines 213 and 224) are `usub64`. -/
def _ring_buffer_reserve_none_empty (rb : RB) (data_len node_size flags : Nat) :
    Option (Option Nat × RB) :=
  match rb.HEAD with
  | none => none   -- line 208 dereferences rb->HEAD
  | some h =>
    let next_possible_node := h + _ring_buffer_node_cost (hget rb.nodes h).len
    if h < (hget rb.nodes h).p_forward then
      -- lines 211-221: node on the right of HEAD
      if usub64 (hget rb.nodes h).p_forward next_possible_node ≥ node_size then
        match _ring_buffer_insert_new_node rb next_possible_node data_len with
        | none => none
        | some rb' => some (some next_possible_node, rb')
      else if flags &&& ring_buffer_flag_overwrite ≠ 0 then
        _ring_buffer_reserve_overwrite rb data_len node_size
      else some (none, rb)
    else if usub64 rb.capacity next_possible_node ≥ node_size then
      -- lines 224-229: higher area
      match _ring_buffer_insert_new_node rb next_possible_node data_len with
      | none => none
      | some rb' => some (some next_possible_node, rb')
    else if (hget rb.nodes h).p_forward ≥ node_size then
      -- lines 232-238: area at the start of the cache
      match _ring_buffer_insert_new_node rb 0 data_len with
      | none => none
      | some rb' => some (some 0, rb')
    else if flags &&& ring_buffer_flag_overwrite ≠ 0 then
      _ring_buffer_reserve_overwrite rb data_len node_size
    else some (none, rb)

/-- `_ring_buffer_commit_for_write_confirm` (RingBuffer.c lines 245-249).
Ghost: the confirmed uid is appended to `confirmedH`. -/
def _ring_buffer_commit_for_write_confirm (rb : RB) (o : Nat) : Int × RB :=
  (0,
    { rb with
        nodes := hset rb.nodes o
          { hget rb.nodes o with state := ring_buffer_node_state.committed },
        confirmedH := rb.confirmedH ++ [(hget rb.nodes o).uid] })

/-- `_ring_buffer_remove_node_chain_pos` (RingBuffer.c lines 251-255). -/
def _ring_buffer_remove_node_chain_pos (m : Heap) (o : Nat) : Heap :=
  let m1 := hset m (hget m o).p_backward
    { hget m ((hget m o).p_backward) with p_forward := (hget m o).p_forward }
  hset m1 (hget m1 o).p_forward
    { hget m1 ((hget m1 o).p_forward) with p_backward := (hget m1 o).p_backward }

/-- `_ring_buffer_remove_tail` (RingBuffer.c lines 257-271).  Dereferences
`rb->TAIL` and (line 263) `rb->TAIL->chain_time.p_newer`, hence `Option`. -/
def _ring_buffer_remove_tail (rb : RB) : Option RB :=
  match rb.TAIL with
  | none => none
  | some t =>
    let m1 := _ring_buffer_remove_node_chain_pos rb.nodes t
    match (hget m1 t).p_newer with
    | none => none   -- line 263 dereferences NULL
    | some tn =>
      let m2 := hset m1 tn { hget m1 tn with p_older := none }
      let next_node := (hget m2 t).p_newer
      some { rb with
        nodes := m2,
        oldest_reserve :=
          if rb.oldest_reserve = rb.TAIL then next_node
          else rb.oldest_reserve,
        TAIL := next_node }

/-- `_ring_buffer_remove_head` (RingBuffer.c lines 273-285).  Dereferences
`rb->HEAD` and (line 279) `rb->HEAD->chain_time.p_older`, hence `Option`. -/
def _ring_buffer_remove_head (rb : RB) : Option RB :=
  match rb.HEAD with
  | none => none
  | some hd =>
    let m1 := _ring_buffer_remove_node_chain_pos rb.nodes hd
    match (hget m1 hd).p_older with
    | none => none   -- line 279 dereferences NULL
    | some ho =>
      let m2 := hset m1 ho { hget m1 ho with p_newer := none }
      some { rb with
        nodes := m2,
        oldest_reserve :=
          if rb.oldest_reserve = rb.HEAD then none else rb.oldest_reserve,
        HEAD := (hget m2 hd).p_older }

/-- `_ring_buffer_delete_node` (RingBuffer.c lines 292-335). -/
def _ring_buffer_delete_node (rb : RB) (o : Nat) : Option RB :=
  if (hget rb.nodes o).p_backward = o ∧ (hget rb.nodes o).p_forward = o then
    some (_ring_buffer_reinit rb)
  else if (hget rb.nodes o).p_older = none then
    _ring_buffer_remove_tail rb
  else if (hget rb.nodes o).p_newer = none then
    _ring_buffer_remove_head rb
  else
    let m1 := _ring_buffer_remove_node_chain_pos rb.nodes o
    -- lines 327-328, re-reading the links as the C statements do
    match (hget m1 o).p_older with
    | none => none   -- line 327 would dereference NULL
    | some po =>
      let m2 := hset m1 po { hget m1 po with p_newer := (hget m1 o).p_newer }
      match (hget m2 o).p_newer with
      | none => none   -- line 328 would dereference NULL
      | some pn =>
        let m3 := hset m2 pn { hget m2 pn with p_older := (hget m2 o).p_older }
        some { rb with
          nodes := m3,
          oldest_reserve :=
            if rb.oldest_reserve = some o then (hget m3 o).p_newer
            else rb.oldest_reserve }

/-- `_ring_buffer_commit_for_write_discard` (RingBuffer.c lines 337-341). -/
def _ring_buffer_commit_for_write_discard (rb : RB) (o : Nat) :
    Option (Int × RB) :=
  Option.map (fun rb' => ((0 : Int), rb')) (_ring_buffer_delete_node rb o)

/-- `_ring_buffer_commit_for_write` (RingBuffer.c lines 343-348). -/
def _ring_buffer_commit_for_write (rb : RB) (o flags : Nat) :
    Option (Int × RB) :=
  if flags &&& ring_buffer_flag_discard ≠ 0 then
    _ring_buffer_commit_for_write_discard rb o
  else
    some (_ring_buffer_commit_for_write_confirm rb o)

/-- `_ring_buffer_commit_for_consume_confirm` (RingBuffer.c lines 350-354). -/
def _ring_buffer_commit_for_consume_confirm (rb : RB) (o : Nat) :
    Option (Int × RB) :=
  Option.map (fun rb' => ((0 : Int), rb')) (_ring_buffer_delete_node rb o)

/-- `_ring_buffer_commit_for_consume_discard` (RingBuffer.c lines 360-387).
The branch at lines 380-383 assigns to the misspelled member
`oldeest_reserve`; the real `oldest_reserve` is left unchanged there,
faithfully to the source text. -/
def _ring_buffer_commit_for_consume_discard (rb : RB) (o flags : Nat) :
    Option (Int × RB) :=
  let newer_is_reading : Bool :=
    match (hget rb.nodes o).p_newer with
    | some nw => (hget rb.nodes nw).state == ring_buffer_node_state.reading
    | none => false
  if newer_is_reading then
    if flags &&& ring_buffer_flag_consume_on_error ≠ 0 then
      _ring_buffer_commit_for_consume_confirm rb o
    else some (-1, rb)
  else
    -- line 370
    let rb1 := { rb with
      nodes := hset rb.nodes o
        { hget rb.nodes o with state := ring_buffer_node_state.committed } }
    match (hget rb1.nodes o).p_newer with
    | none => some (0, { rb1 with oldest_reserve := some o })   -- lines 373-377
    | some _ =>
      match rb1.oldest_reserve with
      | some orr =>
        if (hget rb1.nodes orr).p_older = some o then
          some (0, { rb1 with oldeest_reserve := some o })   -- line 382, sic
        else some (0, rb1)
      | none => some (0, rb1)

/-- `_ring_buffer_commit_for_consume` (RingBuffer.c lines 389-394). -/
def _ring_buffer_commit_for_consume (rb : RB) (o flags : Nat) :
    Option (Int × RB) :=
  if flags &&& ring_buffer_flag_discard ≠ 0 then
    _ring_buffer_commit_for_consume_discard rb o flags
  else
    _ring_buffer_commit_for_consume_confirm rb o

/-- `ring_buffer_init` (RingBuffer.c lines 407-429).  `addr` is the numeric
address of the caller's region, `size` its length; the handle is placed at
the aligned address and the cache follows the header.  The returned state
measures offsets from the cache base. -/
def ring_buffer_init (addr size : Nat) : Option RB :=
  let rb_addr := ALIGN_SIZE addr 8
  let leading_align_size := rb_addr - addr
  if leading_align_size + ring_buffer_heap_cost ≥ size then none
  else
    some (_ring_buffer_reinit
      { capacity := size - leading_align_size - ring_buffer_heap_cost,
        lost := 0, nodes := [], HEAD := none, TAIL := none,
        oldest_reserve := none, oldeest_reserve := none,
        nextUid := 0, consumedH := [], confirmedH := [], evictedH := [] })

/-- `ring_buffer_reserve` (RingBuffer.c lines 438-451). -/
def ring_buffer_reserve (rb : RB) (len flags : Nat) : Option (Option Nat × RB) :=
  let node_size := _ring_buffer_node_cost len
  match rb.TAIL with
  | none => some (_ring_buffer_reserve_empty rb len node_size)
  | some _ => _ring_buffer_reserve_none_empty rb len node_size flags

/-- `ring_buffer_consume` (RingBuffer.c lines 453-471).  Returns
`some (token, lost_snapshot)` on success (the snapshot is what the source
writes through the `lost` out-parameter) and `none` with the buffer unchanged
on failure.  Ghost: the consumed uid is appended to `consumedH`. -/
def ring_buffer_consume (rb : RB) : Option (Nat × Nat) × RB :=
  match rb.oldest_reserve with
  | none => (none, rb)
  | some orf =>
    if (hget rb.nodes orf).state ≠ ring_buffer_node_state.committed then
      (none, rb)
    else
      let lost_out := rb.lost
      let rb1 := { rb with lost := 0,
                           oldest_reserve := (hget rb.nodes orf).p_newer }
      let rb2 := { rb1 with
        nodes := hset rb1.nodes orf
          { hget rb1.nodes orf with state := ring_buffer_node_state.reading },
        consumedH := rb1.consumedH ++ [(hget rb1.nodes orf).uid] }
      (some (orf, lost_out), rb2)

/-- `ring_buffer_commit` (RingBuffer.c lines 473-480).  The token offset is
the node offset (`CONTAINER_FOR` is a fixed shift). -/
def ring_buffer_commit (rb : RB) (o flags : Nat) : Option (Int × RB) :=
  if (hget rb.nodes o).state = ring_buffer_node_state.writing then
    _ring_buffer_commit_for_write rb o flags
  else
    _ring_buffer_commit_for_consume rb o flags

/-- The loop of `ring_buffer_foreach` (RingBuffer.c lines 485-496).  The
visitor receives the token offset and the node state (the C callback's `arg`
closure is part of `cb`).  `fuel` makes the walk total; exhausting it models
the C loop running off a corrupted chain (`none`). -/
def _ring_buffer_foreach_go (m : Heap) (cb : Nat → ring_buffer_node_state → Int) :
    Option Nat → Nat → Nat → Option Nat
  | none, counter, _ => some counter
  | some _, _, 0 => none
  | some o, counter, fuel + 1 =>
    if cb o (hget m o).state < 0 then some counter
    else _ring_buffer_foreach_go m cb (hget m o).p_newer (counter + 1) fuel

/-- `ring_buffer_foreach` (RingBuffer.c lines 482-498). -/
def ring_buffer_foreach (rb : RB) (cb : Nat → ring_buffer_node_state → Int) :
    Option Nat :=
  _ring_buffer_foreach_go rb.nodes cb rb.TAIL 0 (hlen rb.nodes)

/-- One caller-visible operation of the interface. -/
inductive RbOp
| reserveOp (len flags : Nat)
| commitOp (tok flags : Nat)
| consumeOp

/-- Run one operation, keeping only the resulting buffer (`none` = the C
program crashed / undefined behaviour). -/
def runOp (rb : RB) : RbOp → Option RB
  | RbOp.reserveOp l f => Option.map Prod.snd (ring_buffer_reserve rb l f)
  | RbOp.commitOp t f => Option.map Prod.snd (ring_buffer_commit rb t f)
  | RbOp.consumeOp => some (ring_buffer_consume rb).2

/-- Run a sequence of operations. -/
def runOps (rb : RB) : List RbOp → Option RB
  | [] => some rb
  | op :: tl =>
    match runOp rb op with
    | none => none
    | some rb' => runOps rb' tl

/-- A freshly initialised buffer whose cache capacity is exactly `cap`
(an 8-aligned region of `ring_buffer_heap_cost + cap` bytes at address 0). -/
def mkRB (cap : Nat) : RB :=
  (ring_buffer_init 0 (ring_buffer_heap_cost + cap)).getD junk_rb

/-- `l` is the time chain read from `c` by following `p_newer`: the exact
sequence of nodes the source walks from TAIL towards HEAD. -/
def timeChainFrom (m : Heap) : Option Nat → List Nat → Prop
  | c, [] => c = none
  | c, a :: tl => c = some a ∧ timeChainFrom m (hget m a).p_newer tl

instance timeChainFrom_decidable (m : Heap) :
    (c : Option Nat) → (l : List Nat) → Decidable (timeChainFrom m c l)
  | c, [] => inferInstanceAs (Decidable (c = none))
  | c, a :: tl =>
    have : Decidable (timeChainFrom m (hget m a).p_newer tl) :=
      timeChainFrom_decidable m (hget m a).p_newer tl
    inferInstanceAs (Decidable (c = some a ∧ timeChainFrom m (hget m a).p_newer tl))

/-- Specification-side count of visitor invocations made by `foreach` on a
time chain `l`: every node up to and including the first one on which the
visitor returns a negative value (this is what the claim asserts `foreach`
returns). -/
def foreach_invocation_count (m : Heap) (cb : Nat → ring_buffer_node_state → Int) :
    List Nat → Nat
  | [] => 0
  | o :: tl =>
    if cb o (hget m o).state < 0 then 1
    else 1 + foreach_invocation_count m cb tl

/-- Specification-side count of the nodes of a time chain `l` before the
first one on which the visitor returns a negative value. -/
def foreach_nonneg_count (m : Heap) (cb : Nat → ring_buffer_node_state → Int)
    (l : List Nat) : Nat :=
  List.length (List.takeWhile (fun o => decide (0 ≤ cb o (hget m o).state)) l)

/-!
Concrete operation sequences used by the claims.  All of them act on a
buffer initialised at an aligned address, so offsets into the cache start at
0; every node below has payload length 0, hence cost
`_ring_buffer_node_cost 0 = 48`, so successive nodes sit at offsets 0, 48,
96.  Record uids count up from 0 in reservation order.
-/

/-- Two records committed, the first consumed and then consume-discarded:
the trace that drives `_ring_buffer_commit_for_consume_discard` into the
branch that assigns the misspelled member (RingBuffer.c line 382). -/
def traceDD : List RbOp :=
  [RbOp.reserveOp 0 0, RbOp.commitOp 0 0, RbOp.reserveOp 0 0,
   RbOp.commitOp 48 0, RbOp.consumeOp, RbOp.commitOp 0 2]

/-- One record committed and consumed (buffer all-Reading), then a fresh
reserve: the code path that leaves `oldest_reserve` absent although a
Writing node now exists. -/
def traceAR : List RbOp :=
  [RbOp.reserveOp 0 0, RbOp.commitOp 0 0, RbOp.consumeOp, RbOp.reserveOp 0 0]

/-- Three records committed (uids 0, 1, 2 at offsets 0, 48, 96), then an
overwrite reserve that evicts the record at offset 0 and reuses its slot
(uid 3), then three consume calls. -/
def traceC2 : List RbOp :=
  [RbOp.reserveOp 0 0, RbOp.commitOp 0 0, RbOp.reserveOp 0 0,
   RbOp.commitOp 48 0, RbOp.reserveOp 0 0, RbOp.commitOp 96 0,
   RbOp.reserveOp 0 ring_buffer_flag_overwrite,
   RbOp.consumeOp, RbOp.consumeOp, RbOp.consumeOp]

/-- Three records committed, the two oldest consumed, the middle one
consume-discarded (legal: its time-newer neighbour is Committed), then the
newest consumed: leaves offset 0 Reading, offset 48 Committed, offset 96
Reading — a Reading node temporally newer than offset 0 whose immediate
neighbour is not Reading. -/
def traceC4 : List RbOp :=
  [RbOp.reserveOp 0 0, RbOp.commitOp 0 0, RbOp.reserveOp 0 0,
   RbOp.commitOp 48 0, RbOp.reserveOp 0 0, RbOp.commitOp 96 0,
   RbOp.consumeOp, RbOp.consumeOp, RbOp.commitOp 48 ring_buffer_flag_discard,
   RbOp.consumeOp]

/-- Two records committed, the first consumed and consume-confirmed: leaves
a sole Committed node at offset 48 (not at the cache base) in a buffer of
capacity 96. -/
def traceC5 : List RbOp :=
  [RbOp.reserveOp 0 0, RbOp.commitOp 0 0, RbOp.reserveOp 0 0,
   RbOp.commitOp 48 0, RbOp.consumeOp, RbOp.commitOp 0 0]

/-- Three records committed filling the 144-byte cache, the oldest consumed
and consume-confirmed: HEAD is the node at offset 96 and its position
successor is the node at offset 48, i.e. the wrap point lies between HEAD
and its successor, and the only free gap is `[0, 48)` at the cache base. -/
def traceC7 : List RbOp :=
  [RbOp.reserveOp 0 0, RbOp.commitOp 0 0, RbOp.reserveOp 0 0,
   RbOp.commitOp 48 0, RbOp.reserveOp 0 0, RbOp.commitOp 96 0,
   RbOp.consumeOp, RbOp.commitOp 0 0]

/-- Three records committed filling the cache, then an overwrite reserve
that evicts one record: leaves `lost = 1` pending for the next consume. -/
def traceC8 : List RbOp :=
  [RbOp.reserveOp 0 0, RbOp.commitOp 0 0, RbOp.reserveOp 0 0,
   RbOp.commitOp 48 0, RbOp.reserveOp 0 0, RbOp.commitOp 96 0,
   RbOp.reserveOp 0 ring_buffer_flag_overwrite]

/-- Three records committed (uids 0, 1, 2 at offsets 0, 48, 96) filling the
144-byte cache: the state on which an overwrite reserve must evict. -/
def traceFull : List RbOp :=
  [RbOp.reserveOp 0 0, RbOp.commitOp 0 0, RbOp.reserveOp 0 0,
   RbOp.commitOp 48 0, RbOp.reserveOp 0 0, RbOp.commitOp 96 0]

/-- A single reserved (Writing) record: the smallest buffer on which
`foreach` with an always-negative visitor shows the return-value
discrepancy. -/
def traceC9 : List RbOp := [RbOp.reserveOp 0 0]

/-- The state `traceDD` reaches (proved in the C1 theorem). -/
def sDDval : RB :=
  { capacity := 96,
    lost := 0,
    nodes := [(0,
               { p_forward := 48,
                 p_backward := 48,
                 p_newer := some 48,
                 p_older := none,
                 state := ring_buffer_node_state.committed,
                 len := 0,
                 uid := 0 }),
              (48,
               { p_forward := 0,
                 p_backward := 0,
                 p_newer := none,
                 p_older := some 0,
                 state := ring_buffer_node_state.committed,
                 len := 0,
                 uid := 1 })],
    HEAD := some 48,
    TAIL := some 0,
    oldest_reserve := some 48,
    oldeest_reserve := some 0,
    nextUid := 2,
    consumedH := [0],
    confirmedH := [0, 1],
    evictedH := [] }

/-- The state `traceAR` reaches (proved in the C1 theorem). -/
def sARval : RB :=
  { capacity := 96,
    lost := 0,
    nodes := [(0,
               { p_forward := 48,
                 p_backward := 48,
                 p_newer := some 48,
                 p_older := none,
                 state := ring_buffer_node_state.reading,
                 len := 0,
                 uid := 0 }),
              (48,
               { p_forward := 0,
                 p_backward := 0,
                 p_newer := none,
                 p_older := some 0,
                 state := ring_buffer_node_state.writing,
                 len := 0,
                 uid := 1 })],
    HEAD := some 48,
    TAIL := some 0,
    oldest_reserve := none,
    oldeest_reserve := none,
    nextUid := 2,
    consumedH := [0],
    confirmedH := [0],
    evictedH := [] }

/-- The state `traceC2` reaches (proved in the C2 theorem). -/
def sC2val : RB :=
  { capacity := 144,
    lost := 0,
    nodes := [(0,
               { p_forward := 48,
                 p_backward := 96,
                 p_newer := none,
                 p_older := some 96,
                 state := ring_buffer_node_state.reading,
                 len := 0,
                 uid := 3 }),
              (48,
               { p_forward := 96,
                 p_backward := 0,
                 p_newer := some 96,
                 p_older := none,
                 state := ring_buffer_node_state.reading,
                 len := 0,
                 uid := 1 }),
              (96,
               { p_forward := 0,
                 p_backward := 48,
                 p_newer := some 0,
                 p_older := some 48,
                 state := ring_buffer_node_state.reading,
                 len := 0,
                 uid := 2 })],
    HEAD := some 0,
    TAIL := some 0,
    oldest_reserve := none,
    oldeest_reserve := none,
    nextUid := 4,
    consumedH := [1, 2, 3],
    confirmedH := [0, 1, 2],
    evictedH := [0] }

/-- The state `traceC4` reaches (proved in the C4 theorem). -/
def sC4val : RB :=
  { capacity := 144,
    lost := 0,
    nodes := [(0,
               { p_forward := 48,
                 p_backward := 96,
                 p_newer := some 48,
                 p_older := none,
                 state := ring_buffer_node_state.reading,
                 len := 0,
                 uid := 0 }),
              (48,
               { p_forward := 96,
                 p_backward := 0,
                 p_newer := some 96,
                 p_older := some 0,
                 state := ring_buffer_node_state.committed,
                 len := 0,
                 uid := 1 }),
              (96,
               { p_forward := 0,
                 p_backward := 48,
                 p_newer := none,
                 p_older := some 48,
                 state := ring_buffer_node_state.reading,
                 len := 0,
                 uid := 2 })],
    HEAD := some 96,
    TAIL := some 0,
    oldest_reserve := none,
    oldeest_reserve := some 48,
    nextUid := 3,
    consumedH := [0, 1, 2],
    confirmedH := [0, 1, 2],
    evictedH := [] }

/-- The state `traceC5` reaches (proved in the C5 counterexample theorem). -/
def sC5val : RB :=
  { capacity := 96,
    lost := 0,
    nodes := [(0,
               { p_forward := 48,
                 p_backward := 48,
                 p_newer := some 48,
                 p_older := none,
                 state := ring_buffer_node_state.reading,
                 len := 0,
                 uid := 0 }),
              (48,
               { p_forward := 48,
                 p_backward := 48,
                 p_newer := none,
                 p_older := none,
                 state := ring_buffer_node_state.committed,
                 len := 0,
                 uid := 1 })],
    HEAD := some 48,
    TAIL := some 48,
    oldest_reserve := some 48,
    oldeest_reserve := none,
    nextUid := 2,
    consumedH := [0],
    confirmedH := [0, 1],
    evictedH := [] }

/-- The state `traceC7` reaches (proved in `trace_state_eval`). -/
def sC7val : RB :=
  { capacity := 144,
    lost := 0,
    nodes := [(0,
               { p_forward := 48,
                 p_backward := 96,
                 p_newer := some 48,
                 p_older := none,
                 state := ring_buffer_node_state.reading,
                 len := 0,
                 uid := 0 }),
              (48,
               { p_forward := 96,
                 p_backward := 96,
                 p_newer := some 96,
                 p_older := none,
                 state := ring_buffer_node_state.committed,
                 len := 0,
                 uid := 1 }),
              (96,
               { p_forward := 48,
                 p_backward := 48,
                 p_newer := none,
                 p_older := some 48,
                 state := ring_buffer_node_state.committed,
                 len := 0,
                 uid := 2 })],
    HEAD := some 96,
    TAIL := some 48,
    oldest_reserve := some 48,
    oldeest_reserve := none,
    nextUid := 3,
    consumedH := [0],
    confirmedH := [0, 1, 2],
    evictedH := [] }

/-- The state `traceC8` reaches (proved in `trace_state_eval`). -/
def sC8val : RB :=
  { capacity := 144,
    lost := 1,
    nodes := [(0,
               { p_forward := 48,
                 p_backward := 96,
                 p_newer := none,
                 p_older := some 96,
                 state := ring_buffer_node_state.committed,
                 len := 0,
                 uid := 3 }),
              (48,
               { p_forward := 96,
                 p_backward := 0,
                 p_newer := some 96,
                 p_older := none,
                 state := ring_buffer_node_state.committed,
                 len := 0,
                 uid := 1 }),
              (96,
               { p_forward := 0,
                 p_backward := 48,
                 p_newer := some 0,
                 p_older := some 48,
                 state := ring_buffer_node_state.committed,
                 len := 0,
                 uid := 2 })],
    HEAD := some 0,
    TAIL := some 0,
    oldest_reserve := some 48,
    oldeest_reserve := none,
    nextUid := 4,
    consumedH := [],
    confirmedH := [0, 1, 2],
    evictedH := [0] }

/-- The state `traceFull` reaches (proved in `trace_state_eval`). -/
def sFullval : RB :=
  { capacity := 144,
    lost := 0,
    nodes := [(0,
               { p_forward := 48,
                 p_backward := 96,
                 p_newer := some 48,
                 p_older := none,
                 state := ring_buffer_node_state.committed,
                 len := 0,
                 uid := 0 }),
              (48,
               { p_forward := 96,
                 p_backward := 0,
                 p_newer := some 96,
                 p_older := some 0,
                 state := ring_buffer_node_state.committed,
                 len := 0,
                 uid := 1 }),
              (96,
               { p_forward := 0,
                 p_backward := 48,
                 p_newer := none,
                 p_older := some 48,
                 state := ring_buffer_node_state.committed,
                 len := 0,
                 uid := 2 })],
    HEAD := some 96,
    TAIL := some 0,
    oldest_reserve := some 0,
    oldeest_reserve := none,
    nextUid := 3,
    consumedH := [],
    confirmedH := [0, 1, 2],
    evictedH := [] }

/-- The state `traceC9` reaches (proved in the C9 counterexample). -/
def sC9val : RB :=
  { capacity := 96,
    lost := 0,
    nodes := [(0,
               { p_forward := 0,
                 p_backward := 0,
                 p_newer := none,
                 p_older := none,
                 state := ring_buffer_node_state.writing,
                 len := 0,
                 uid := 0 })],
    HEAD := some 0,
    TAIL := some 0,
    oldest_reserve := some 0,
    oldeest_reserve := none,
    nextUid := 1,
    consumedH := [],
    confirmedH := [],
    evictedH := [] }

/-- The value of `mkRB 96` (proved in the C10 witness). -/
def s96val : RB :=
  { capacity := 96,
    lost := 0,
    nodes := [],
    HEAD := none,
    TAIL := none,
    oldest_reserve := none,
    oldeest_reserve := none,
    nextUid := 0,
    consumedH := [],
    confirmedH := [],
    evictedH := [] }

/-! ### Heap lemmas -/

/-- Reading the offset just written. -/
theorem hget_hset_self (m : Heap) (o : Nat) (n : ring_buffer_node) :
    hget (hset m o n) o = n := by
  induction m with
  | nil => simp [hget, hset]
  | cons p tl ih =>
    by_cases hp : p.1 = o
    · simp [hget, hset, hp]
    · simp [hget, hset, hp, ih]

/-- Reading another offset after a write. -/
theorem hget_hset_other (m : Heap) (o o' : Nat) (n : ring_buffer_node)
    (h : o' ≠ o) : hget (hset m o n) o' = hget m o' := by
  induction m with
  | nil =>
    simp only [hset, hget]
    rw [if_neg (by omega)]
  | cons p tl ih =>
    simp only [hset]
    by_cases hp : p.1 = o
    · rw [if_pos hp]
      simp only [hget]
      rw [if_neg (by omega), if_neg (by omega)]
    · rw [if_neg hp]
      simp only [hget]
      by_cases hq : p.1 = o'
      · rw [if_pos hq, if_pos hq]
      · rw [if_neg hq, if_neg hq, ih]

/-- A write that does not change the stored state leaves every node's state
as it was. -/
theorem hget_hset_state (m : Heap) (x : Nat) (n : ring_buffer_node)
    (hs : n.state = (hget m x).state) (o : Nat) :
    (hget (hset m x n) o).state = (hget m o).state := by
  by_cases h : o = x
  · subst h
    rw [hget_hset_self, hs]
  · rw [hget_hset_other m x o n h]

/-- A write that does not change the stored length leaves every node's
length as it was. -/
theorem hget_hset_len (m : Heap) (x : Nat) (n : ring_buffer_node)
    (hs : n.len = (hget m x).len) (o : Nat) :
    (hget (hset m x n) o).len = (hget m o).len := by
  by_cases h : o = x
  · subst h
    rw [hget_hset_self, hs]
  · rw [hget_hset_other m x o n h]

/-! ### Frame lemmas for the internal operations -/

/-- What `_ring_buffer_update_time_for_new_node` does to everything except
the two time links it writes. -/
theorem update_time_spec (rb : RB) (nn : Nat) (rb' : RB)
    (h : _ring_buffer_update_time_for_new_node rb nn = some rb') :
    rb'.capacity = rb.capacity ∧ rb'.lost = rb.lost
    ∧ rb'.oldest_reserve = rb.oldest_reserve
    ∧ rb'.TAIL = rb.TAIL ∧ rb'.HEAD = some nn
    ∧ rb'.nextUid = rb.nextUid ∧ rb'.consumedH = rb.consumedH
    ∧ rb'.confirmedH = rb.confirmedH ∧ rb'.evictedH = rb.evictedH
    ∧ (∀ o, (hget rb'.nodes o).state = (hget rb.nodes o).state)
    ∧ (∀ o, (hget rb'.nodes o).len = (hget rb.nodes o).len) := by
  cases hH : rb.HEAD with
  | none =>
    simp only [_ring_buffer_update_time_for_new_node, hH] at h
    exact Option.noConfusion h
  | some hd =>
    simp only [_ring_buffer_update_time_for_new_node, hH, Option.some.injEq] at h
    subst h
    refine ⟨rfl, rfl, rfl, rfl, rfl, rfl, rfl, rfl, rfl, ?_, ?_⟩
    · intro o
      simp only [hget_hset_state]
    · intro o
      simp only [hget_hset_len]

/-- What `_ring_buffer_insert_new_node` produces: the new node is Writing
with the requested length, becomes HEAD, and nothing else of the header
changes. -/
theorem insert_new_node_spec (rb : RB) (nn l : Nat) (rb' : RB)
    (h : _ring_buffer_insert_new_node rb nn l = some rb') :
    rb'.capacity = rb.capacity ∧ rb'.lost = rb.lost
    ∧ rb'.oldest_reserve = rb.oldest_reserve
    ∧ rb'.TAIL = rb.TAIL ∧ rb'.HEAD = some nn
    ∧ rb'.nextUid = rb.nextUid + 1 ∧ rb'.consumedH = rb.consumedH
    ∧ rb'.confirmedH = rb.confirmedH ∧ rb'.evictedH = rb.evictedH
    ∧ (hget rb'.nodes nn).state = ring_buffer_node_state.writing
    ∧ (hget rb'.nodes nn).len = l := by
  cases hH : rb.HEAD with
  | none =>
    simp only [_ring_buffer_insert_new_node, hH] at h
    exact Option.noConfusion h
  | some hd =>
    simp only [_ring_buffer_insert_new_node, hH] at h
    have hs := update_time_spec _ nn rb' h
    obtain ⟨h1, h2, h3, h4, h5, h6, h7, h8, h9, h10, h11⟩ := hs
    refine ⟨h1, h2, h3, h4, h5, h6, h7, h8, h9, ?_, ?_⟩
    · rw [h10 nn]
      refine Eq.trans (hget_hset_state _ _ _ (by rfl) nn) ?_
      refine Eq.trans (hget_hset_state _ _ _ (by rfl) nn) ?_
      refine Eq.trans (hget_hset_state _ _ _ (by rfl) nn) ?_
      rw [hget_hset_self]
    · rw [h11 nn]
      refine Eq.trans (hget_hset_len _ _ _ (by rfl) nn) ?_
      refine Eq.trans (hget_hset_len _ _ _ (by rfl) nn) ?_
      refine Eq.trans (hget_hset_len _ _ _ (by rfl) nn) ?_
      rw [hget_hset_self]

/-! ### The overwrite walk and the cases of `_ring_buffer_reserve_overwrite` -/

/-- The walk's `lost_node` counter always equals the length of its visited
list (both start in step and grow together). -/
theorem owalk_vis_cnt (m : Heap) (ns : Nat) :
    ∀ (fuel node_end sum cnt : Nat) (vis : List Nat),
      (_ring_buffer_overwrite_walk m ns fuel node_end sum cnt vis).2.2.1
          + List.length vis
        = cnt
          + List.length
              (_ring_buffer_overwrite_walk m ns fuel node_end sum cnt vis).2.2.2 := by
  intro fuel
  induction fuel with
  | zero =>
    intro node_end sum cnt vis
    simp [_ring_buffer_overwrite_walk]
  | succ f ih =>
    intro node_end sum cnt vis
    simp only [_ring_buffer_overwrite_walk]
    split
    · have h := ih ((hget m node_end).p_forward)
        (sum + _ring_buffer_node_cost (hget m node_end).len) (cnt + 1)
        (vis ++ [(hget m node_end).p_forward])
      rw [List.length_append] at h
      simp only [List.length_cons, List.length_nil] at h
      omega
    · simp

/-- Overwrite with `oldest_reserve` absent fails and changes nothing
(RingBuffer.c lines 119-122). -/
theorem overwrite_no_reserve (rb : RB) (l ns : Nat)
    (h : rb.oldest_reserve = none) :
    _ring_buffer_reserve_overwrite rb l ns = some (none, rb) := by
  simp only [_ring_buffer_reserve_overwrite, h]

/-- Overwrite with `oldest_reserve` not Committed fails and changes nothing
(RingBuffer.c lines 119-122). -/
theorem overwrite_not_committed (rb : RB) (l ns orf : Nat)
    (h1 : rb.oldest_reserve = some orf)
    (h2 : (hget rb.nodes orf).state ≠ ring_buffer_node_state.committed) :
    _ring_buffer_reserve_overwrite rb l ns = some (none, rb) := by
  simp only [_ring_buffer_reserve_overwrite, h1]
  rw [if_pos h2]

/-- Overwrite of a sole node that fits: the buffer resets and the new record
is placed at the cache base, regardless of the walk's accumulated size
(RingBuffer.c lines 125-134). -/
theorem overwrite_sole_fits (rb : RB) (l ns orf : Nat)
    (h1 : rb.oldest_reserve = some orf)
    (h2 : (hget rb.nodes orf).state = ring_buffer_node_state.committed)
    (h3 : (hget rb.nodes orf).p_forward = orf)
    (h4 : (hget rb.nodes orf).p_backward = orf)
    (h5 : ns ≤ rb.capacity) :
    _ring_buffer_reserve_overwrite rb l ns
      = some (some 0,
          { capacity := rb.capacity, lost := rb.lost + 1,
            nodes := hset rb.nodes 0
              { p_forward := 0, p_backward := 0, p_newer := none,
                p_older := none, state := ring_buffer_node_state.writing,
                len := l, uid := rb.nextUid },
            HEAD := some 0, TAIL := some 0, oldest_reserve := some 0,
            oldeest_reserve := rb.oldeest_reserve,
            nextUid := rb.nextUid + 1, consumedH := rb.consumedH,
            confirmedH := rb.confirmedH,
            evictedH := rb.evictedH ++ [(hget rb.nodes orf).uid] }) := by
  simp only [_ring_buffer_reserve_overwrite, h1]
  rw [if_neg (by simp [h2])]
  rw [if_pos ⟨h3, h4⟩]
  rw [if_pos h5]
  simp only [_ring_buffer_reserve_empty, _ring_buffer_reinit]
  rw [if_neg (by simp; omega)]

/-- Overwrite of a sole node that does not fit fails and changes nothing
(RingBuffer.c lines 127-133). -/
theorem overwrite_sole_nofit (rb : RB) (l ns orf : Nat)
    (h1 : rb.oldest_reserve = some orf)
    (h2 : (hget rb.nodes orf).state = ring_buffer_node_state.committed)
    (h3 : (hget rb.nodes orf).p_forward = orf)
    (h4 : (hget rb.nodes orf).p_backward = orf)
    (h5 : rb.capacity < ns) :
    _ring_buffer_reserve_overwrite rb l ns = some (none, rb) := by
  simp only [_ring_buffer_reserve_overwrite, h1]
  rw [if_neg (by simp [h2])]
  rw [if_pos ⟨h3, h4⟩]
  rw [if_neg (by omega)]

/-- Overwrite whose walk stops with an accumulated size below the requested
node size fails and changes nothing (RingBuffer.c lines 158-162). -/
theorem overwrite_run_short (rb : RB) (l ns orf : Nat)
    (h1 : rb.oldest_reserve = some orf)
    (h2 : (hget rb.nodes orf).state = ring_buffer_node_state.committed)
    (h3 : ¬((hget rb.nodes orf).p_forward = orf
            ∧ (hget rb.nodes orf).p_backward = orf))
    (h4 : (_ring_buffer_overwrite_walk rb.nodes ns (hlen rb.nodes + 1)
            orf 0 1 [orf]).2.1 < ns) :
    _ring_buffer_reserve_overwrite rb l ns = some (none, rb) := by
  simp only [_ring_buffer_reserve_overwrite, h1]
  rw [if_neg (by simp [h2])]
  rw [if_neg h3]
  rw [if_pos h4]

/-- Overwrite whose walk reaches HEAD (the run end has no time-newer node)
is undefined behaviour: RingBuffer.c line 179 dereferences `NULL`. -/
theorem overwrite_run_hits_head (rb : RB) (l ns orf : Nat)
    (h1 : rb.oldest_reserve = some orf)
    (h2 : (hget rb.nodes orf).state = ring_buffer_node_state.committed)
    (h3 : ¬((hget rb.nodes orf).p_forward = orf
            ∧ (hget rb.nodes orf).p_backward = orf))
    (h4 : ns ≤ (_ring_buffer_overwrite_walk rb.nodes ns (hlen rb.nodes + 1)
            orf 0 1 [orf]).2.1)
    (h5 : (hget rb.nodes (_ring_buffer_overwrite_walk rb.nodes ns
            (hlen rb.nodes + 1) orf 0 1 [orf]).1).p_newer = none) :
    _ring_buffer_reserve_overwrite rb l ns = none := by
  simp only [_ring_buffer_reserve_overwrite, h1]
  rw [if_neg (by simp [h2])]
  rw [if_neg h3]
  rw [if_neg (by omega)]
  rw [h5]

/-- Overwrite whose walk accumulates enough space and whose run end has a
time-newer node: the run is evicted, `oldest_reserve` advances past the run,
the start of the run is reused as the returned token with the new length and
becomes HEAD, and `lost` grows by the length of the run.  Note what does
not change, faithfully to the source: `TAIL` (even when the evicted start
was the TAIL). -/
theorem overwrite_run_success (rb : RB) (l ns orf nx hd : Nat)
    (h1 : rb.oldest_reserve = some orf)
    (h2 : (hget rb.nodes orf).state = ring_buffer_node_state.committed)
    (h3 : ¬((hget rb.nodes orf).p_forward = orf
            ∧ (hget rb.nodes orf).p_backward = orf))
    (h4 : ns ≤ (_ring_buffer_overwrite_walk rb.nodes ns (hlen rb.nodes + 1)
            orf 0 1 [orf]).2.1)
    (h5 : (hget rb.nodes (_ring_buffer_overwrite_walk rb.nodes ns
            (hlen rb.nodes + 1) orf 0 1 [orf]).1).p_newer = some nx)
    (h6 : rb.HEAD = some hd) :
    ∃ rb', _ring_buffer_reserve_overwrite rb l ns = some (some orf, rb')
      ∧ rb'.oldest_reserve = some nx
      ∧ rb'.HEAD = some orf
      ∧ rb'.TAIL = rb.TAIL
      ∧ rb'.capacity = rb.capacity
      ∧ rb'.lost = rb.lost
          + (_ring_buffer_overwrite_walk rb.nodes ns (hlen rb.nodes + 1)
              orf 0 1 [orf]).2.2.1
      ∧ rb'.evictedH = rb.evictedH
          ++ List.map (fun o => (hget rb.nodes o).uid)
              (_ring_buffer_overwrite_walk rb.nodes ns (hlen rb.nodes + 1)
                orf 0 1 [orf]).2.2.2
      ∧ rb'.consumedH = rb.consumedH
      ∧ rb'.confirmedH = rb.confirmedH
      ∧ rb'.nextUid = rb.nextUid + 1
      ∧ (hget rb'.nodes orf).len = l
      ∧ (hget rb'.nodes orf).uid = rb.nextUid := by
  simp only [_ring_buffer_reserve_overwrite, h1]
  rw [if_neg (by simp [h2])]
  rw [if_neg h3]
  rw [if_neg (by omega)]
  rw [h5]
  simp only [_ring_buffer_update_time_for_new_node]
  rw [show ({ rb with
      oldest_reserve := some nx } : RB).HEAD = rb.HEAD from rfl, h6]
  refine ⟨_, rfl, rfl, rfl, rfl, rfl, rfl, rfl, rfl, rfl, rfl, ?_, ?_⟩
  · rw [hget_hset_self]
  · rw [hget_hset_self]

/-- The no-HEAD companion of `overwrite_run_success`: when the run can be
evicted but the buffer header has no HEAD, the promotion of the reused node
dereferences `NULL` (through `_ring_buffer_update_time_for_new_node`). -/
theorem overwrite_run_no_head (rb : RB) (l ns orf nx : Nat)
    (h1 : rb.oldest_reserve = some orf)
    (h2 : (hget rb.nodes orf).state = ring_buffer_node_state.committed)
    (h3 : ¬((hget rb.nodes orf).p_forward = orf
            ∧ (hget rb.nodes orf).p_backward = orf))
    (h4 : ns ≤ (_ring_buffer_overwrite_walk rb.nodes ns (hlen rb.nodes + 1)
            orf 0 1 [orf]).2.1)
    (h5 : (hget rb.nodes (_ring_buffer_overwrite_walk rb.nodes ns
            (hlen rb.nodes + 1) orf 0 1 [orf]).1).p_newer = some nx)
    (h6 : rb.HEAD = none) :
    _ring_buffer_reserve_overwrite rb l ns = none := by
  simp only [_ring_buffer_reserve_overwrite, h1]
  rw [if_neg (by simp [h2])]
  rw [if_neg h3]
  rw [if_neg (by omega)]
  rw [h5]
  simp only [_ring_buffer_update_time_for_new_node]
  rw [show ({ rb with
      oldest_reserve := some nx } : RB).HEAD = rb.HEAD from rfl, h6]

/-- A failing overwrite (`NULL` token) leaves the buffer untouched. -/
theorem overwrite_none_frame (rb : RB) (l ns : Nat) (rb' : RB)
    (h : _ring_buffer_reserve_overwrite rb l ns = some (none, rb')) :
    rb' = rb := by
  cases hor : rb.oldest_reserve with
  | none =>
    rw [overwrite_no_reserve rb l ns hor] at h
    simp only [Option.some.injEq, Prod.mk.injEq] at h
    exact h.2.symm
  | some orf =>
    by_cases h2 : (hget rb.nodes orf).state = ring_buffer_node_state.committed
    · by_cases h3 : (hget rb.nodes orf).p_forward = orf
          ∧ (hget rb.nodes orf).p_backward = orf
      · by_cases h5 : ns ≤ rb.capacity
        · rw [overwrite_sole_fits rb l ns orf hor h2 h3.1 h3.2 h5] at h
          simp at h
        · rw [overwrite_sole_nofit rb l ns orf hor h2 h3.1 h3.2 (by omega)] at h
          simp only [Option.some.injEq, Prod.mk.injEq] at h
          exact h.2.symm
      · by_cases h4 : (_ring_buffer_overwrite_walk rb.nodes ns
            (hlen rb.nodes + 1) orf 0 1 [orf]).2.1 < ns
        · rw [overwrite_run_short rb l ns orf hor h2 h3 h4] at h
          simp only [Option.some.injEq, Prod.mk.injEq] at h
          exact h.2.symm
        · cases h5 : (hget rb.nodes (_ring_buffer_overwrite_walk rb.nodes ns
              (hlen rb.nodes + 1) orf 0 1 [orf]).1).p_newer with
          | none =>
            rw [overwrite_run_hits_head rb l ns orf hor h2 h3 (by omega) h5] at h
            exact Option.noConfusion h
          | some nx =>
            cases hH : rb.HEAD with
            | none =>
              rw [overwrite_run_no_head rb l ns orf nx hor h2 h3 (by omega) h5 hH] at h
              exact Option.noConfusion h
            | some hd =>
              obtain ⟨rb'', hR, _⟩ :=
                overwrite_run_success rb l ns orf nx hd hor h2 h3 (by omega) h5 hH
              rw [hR] at h
              simp at h
    · rw [overwrite_not_committed rb l ns orf hor h2] at h
      simp only [Option.some.injEq, Prod.mk.injEq] at h
      exact h.2.symm

/-- Ghost accounting of overwrite: whatever branch is taken, `evictedH` is
extended by some list of evicted uids and `lost` grows by exactly its
length; a failed overwrite evicts nothing. -/
theorem overwrite_ghost_accounting (rb : RB) (l ns : Nat) (tok : Option Nat)
    (rb' : RB)
    (h : _ring_buffer_reserve_overwrite rb l ns = some (tok, rb')) :
    ∃ e, rb'.evictedH = rb.evictedH ++ e ∧ rb'.lost = rb.lost + List.length e
      ∧ (tok = none → e = []) := by
  cases hor : rb.oldest_reserve with
  | none =>
    rw [overwrite_no_reserve rb l ns hor] at h
    simp only [Option.some.injEq, Prod.mk.injEq] at h
    refine ⟨[], ?_⟩
    rw [← h.2]
    simp
  | some orf =>
    by_cases h2 : (hget rb.nodes orf).state = ring_buffer_node_state.committed
    · by_cases h3 : (hget rb.nodes orf).p_forward = orf
          ∧ (hget rb.nodes orf).p_backward = orf
      · by_cases h5 : ns ≤ rb.capacity
        · rw [overwrite_sole_fits rb l ns orf hor h2 h3.1 h3.2 h5] at h
          simp only [Option.some.injEq, Prod.mk.injEq] at h
          refine ⟨[(hget rb.nodes orf).uid], ?_⟩
          rw [← h.2]
          simp [← h.1]
        · rw [overwrite_sole_nofit rb l ns orf hor h2 h3.1 h3.2 (by omega)] at h
          simp only [Option.some.injEq, Prod.mk.injEq] at h
          refine ⟨[], ?_⟩
          rw [← h.2]
          simp
      · by_cases h4 : (_ring_buffer_overwrite_walk rb.nodes ns
            (hlen rb.nodes + 1) orf 0 1 [orf]).2.1 < ns
        · rw [overwrite_run_short rb l ns orf hor h2 h3 h4] at h
          simp only [Option.some.injEq, Prod.mk.injEq] at h
          refine ⟨[], ?_⟩
          rw [← h.2]
          simp
        · cases h5 : (hget rb.nodes (_ring_buffer_overwrite_walk rb.nodes ns
              (hlen rb.nodes + 1) orf 0 1 [orf]).1).p_newer with
          | none =>
            rw [overwrite_run_hits_head rb l ns orf hor h2 h3 (by omega) h5] at h
            exact Option.noConfusion h
          | some nx =>
            cases hH : rb.HEAD with
            | none =>
              rw [overwrite_run_no_head rb l ns orf nx hor h2 h3 (by omega) h5 hH] at h
              exact Option.noConfusion h
            | some hd =>
              obtain ⟨rb'', hR, hs1, hs2, hs3, hs4, hs5, hs6, hs7, hs8, hs9, hs10, hs11⟩ :=
                overwrite_run_success rb l ns orf nx hd hor h2 h3 (by omega) h5 hH
              rw [hR] at h
              simp only [Option.some.injEq, Prod.mk.injEq] at h
              refine ⟨List.map (fun o => (hget rb.nodes o).uid)
                (_ring_buffer_overwrite_walk rb.nodes ns (hlen rb.nodes + 1)
                  orf 0 1 [orf]).2.2.2, ?_, ?_, ?_⟩
              · rw [← h.2, hs6]
              · rw [← h.2, hs5, List.length_map]
                have hw := owalk_vis_cnt rb.nodes ns (hlen rb.nodes + 1) orf 0 1 [orf]
                simp only [List.length_cons, List.length_nil] at hw
                omega
              · intro htok
                rw [← h.1] at htok
                exact Option.noConfusion htok
    · rw [overwrite_not_committed rb l ns orf hor h2] at h
      simp only [Option.some.injEq, Prod.mk.injEq] at h
      refine ⟨[], ?_⟩
      rw [← h.2]
      simp

/-- `_ring_buffer_insert_new_node` succeeds whenever HEAD is present. -/
theorem insert_some (rb : RB) (nn l hd : Nat) (hH : rb.HEAD = some hd) :
    ∃ rb', _ring_buffer_insert_new_node rb nn l = some rb' := by
  simp only [_ring_buffer_insert_new_node, hH,
    _ring_buffer_update_time_for_new_node]
  exact ⟨_, rfl⟩

/-- `ALIGN_SIZE` agrees with the C macro's bit-mask form
`(s + 7) & ~(uintptr_t)7` for every size that does not overflow the 64-bit
addition (`~7` over 64 bits is `2^64 - 8`). -/
theorem ALIGN_SIZE_eq_mask (s : Nat) (h : s + 7 < 2 ^ 64) :
    ALIGN_SIZE s 8 = (s + 7) &&& (2 ^ 64 - 8) := by
  have hL : ALIGN_SIZE s 8 = (s + 7) >>> 3 <<< 3 := by
    rw [Nat.shiftRight_eq_div_pow, Nat.shiftLeft_eq]
    norm_num [ALIGN_SIZE]
  have hmask : (2 ^ 64 - 8 : Nat) = (2 ^ 61 - 1) <<< 3 := by
    rw [Nat.shiftLeft_eq]
    norm_num
  rw [hL, hmask]
  apply Nat.eq_of_testBit_eq
  intro i
  rw [Nat.testBit_land, Nat.testBit_shiftLeft, Nat.testBit_shiftLeft,
    Nat.testBit_shiftRight, Nat.testBit_two_pow_sub_one]
  rcases Nat.lt_or_ge i 3 with hi | hi
  · have hd : decide (i ≥ 3) = false := by
      simp only [decide_eq_false_iff_not]
      omega
    simp [hd]
  · have h3 : 3 + (i - 3) = i := by omega
    rw [h3]
    have hd : decide (i ≥ 3) = true := by
      simp only [decide_eq_true_eq]
      omega
    rcases Nat.lt_or_ge i 64 with hi2 | hi2
    · have h2 : decide (i - 3 < 61) = true := by
        simp only [decide_eq_true_eq]
        omega
      simp [hd, h2]
    · have hq : (s + 7).testBit i = false :=
        Nat.testBit_lt_two_pow
          (lt_of_lt_of_le h (Nat.pow_le_pow_right (by norm_num) hi2))
      have h2 : decide (i - 3 < 61) = false := by
        simp only [decide_eq_false_iff_not]
        omega
      simp [hq, h2]

/-- Every record costs at least as much as an empty one. -/
theorem node_cost_zero_le (l : Nat) :
    ring_buffer_node_cost 0 ≤ _ring_buffer_node_cost l := by
  simp only [ring_buffer_node_cost, _ring_buffer_node_cost, ALIGN_SIZE,
    sizeof_ring_buffer_node]
  have h : (48 + 0 + (8 - 1)) / 8 ≤ (48 + l + (8 - 1)) / 8 :=
    Nat.div_le_div_right (by omega)
  omega

/-- Deleting a node never touches the counters, the capacity or the ghost
histories, on any of its four paths. -/
theorem delete_node_frame (rb : RB) (o : Nat) (rb' : RB)
    (h : _ring_buffer_delete_node rb o = some rb') :
    rb'.capacity = rb.capacity ∧ rb'.lost = rb.lost
    ∧ rb'.nextUid = rb.nextUid ∧ rb'.consumedH = rb.consumedH
    ∧ rb'.confirmedH = rb.confirmedH ∧ rb'.evictedH = rb.evictedH := by
  simp only [_ring_buffer_delete_node] at h
  split at h
  · simp only [_ring_buffer_reinit, Option.some.injEq] at h
    rw [← h]
    exact ⟨rfl, rfl, rfl, rfl, rfl, rfl⟩
  · split at h
    · simp only [_ring_buffer_remove_tail] at h
      split at h
      · exact Option.noConfusion h
      · split at h
        · exact Option.noConfusion h
        · simp only [Option.some.injEq] at h
          rw [← h]
          exact ⟨rfl, rfl, rfl, rfl, rfl, rfl⟩
    · split at h
      · simp only [_ring_buffer_remove_head] at h
        split at h
        · exact Option.noConfusion h
        · split at h
          · exact Option.noConfusion h
          · simp only [Option.some.injEq] at h
            rw [← h]
            exact ⟨rfl, rfl, rfl, rfl, rfl, rfl⟩
      · split at h
        · exact Option.noConfusion h
        · split at h
          · exact Option.noConfusion h
          · simp only [Option.some.injEq] at h
            rw [← h]
            exact ⟨rfl, rfl, rfl, rfl, rfl, rfl⟩

/-- The loop of `foreach` along a well-linked time chain returns the running
counter plus the number of nodes visited with a non-negative visitor result:
the node on which the visitor first returns a negative value is not
counted, because `break` skips the loop increment. -/
theorem foreach_go_spec (m : Heap) (cb : Nat → ring_buffer_node_state → Int) :
    ∀ (l : List Nat) (c : Option Nat) (counter fuel : Nat),
      timeChainFrom m c l → List.length l ≤ fuel →
      _ring_buffer_foreach_go m cb c counter fuel
        = some (counter + foreach_nonneg_count m cb l) := by
  intro l
  induction l with
  | nil =>
    intro c counter fuel hc _
    have hcn : c = none := hc
    subst hcn
    simp [_ring_buffer_foreach_go, foreach_nonneg_count]
  | cons a tl ih =>
    intro c counter fuel hc hf
    obtain ⟨hca, htl⟩ := hc
    subst hca
    cases fuel with
    | zero => simp at hf
    | succ f =>
      simp only [_ring_buffer_foreach_go]
      by_cases hneg : cb a (hget m a).state < 0
      · rw [if_pos hneg]
        have hb : decide (0 ≤ cb a (hget m a).state) = false :=
          decide_eq_false_iff_not.mpr (by omega)
        simp [foreach_nonneg_count, List.takeWhile_cons, hb]
      · rw [if_neg hneg]
        rw [ih (hget m a).p_newer (counter + 1) f htl
          (by simp only [List.length_cons] at hf; omega)]
        have hb : decide (0 ≤ cb a (hget m a).state) = true :=
          decide_eq_true (by omega)
        simp only [foreach_nonneg_count, List.takeWhile_cons, hb, if_true,
          List.length_cons, Option.some.injEq]
        omega


/-- The literal states used by the witnesses below are the states their
traces reach (and `s96val` is the freshly initialised 96-byte buffer, proved
inside the C10 witness). -/
theorem trace_state_eval :
    runOps (mkRB 144) traceFull = some sFullval
    ∧ runOps (mkRB 144) traceC7 = some sC7val
    ∧ runOps (mkRB 144) traceC8 = some sC8val := by
  refine ⟨?_, ?_, ?_⟩
  · simp [mkRB, runOps, runOp, traceC7, traceC8, traceFull, ring_buffer_init, ring_buffer_reserve, ring_buffer_consume, ring_buffer_commit, _ring_buffer_reserve_empty, _ring_buffer_reserve_none_empty, _ring_buffer_reserve_overwrite, _ring_buffer_insert_new_node, _ring_buffer_update_time_for_new_node, _ring_buffer_overwrite_walk, _ring_buffer_commit_for_write, _ring_buffer_commit_for_write_confirm, _ring_buffer_commit_for_write_discard, _ring_buffer_commit_for_consume, _ring_buffer_commit_for_consume_confirm, _ring_buffer_commit_for_consume_discard, _ring_buffer_delete_node, _ring_buffer_remove_tail, _ring_buffer_remove_head, _ring_buffer_remove_node_chain_pos, _ring_buffer_reinit, _ring_buffer_node_cost, ring_buffer_heap_cost, ring_buffer_node_cost, ALIGN_SIZE, sizeof_ring_buffer_node, sizeof_struct_ring_buffer, usub64, UINT64, hget, hset, hlen, junk_rb, junk_node, ring_buffer_flag_overwrite, ring_buffer_flag_discard, ring_buffer_flag_consume_on_error, sC7val, sC8val, sFullval]
  · simp [mkRB, runOps, runOp, traceC7, traceC8, traceFull, ring_buffer_init, ring_buffer_reserve, ring_buffer_consume, ring_buffer_commit, _ring_buffer_reserve_empty, _ring_buffer_reserve_none_empty, _ring_buffer_reserve_overwrite, _ring_buffer_insert_new_node, _ring_buffer_update_time_for_new_node, _ring_buffer_overwrite_walk, _ring_buffer_commit_for_write, _ring_buffer_commit_for_write_confirm, _ring_buffer_commit_for_write_discard, _ring_buffer_commit_for_consume, _ring_buffer_commit_for_consume_confirm, _ring_buffer_commit_for_consume_discard, _ring_buffer_delete_node, _ring_buffer_remove_tail, _ring_buffer_remove_head, _ring_buffer_remove_node_chain_pos, _ring_buffer_reinit, _ring_buffer_node_cost, ring_buffer_heap_cost, ring_buffer_node_cost, ALIGN_SIZE, sizeof_ring_buffer_node, sizeof_struct_ring_buffer, usub64, UINT64, hget, hset, hlen, junk_rb, junk_node, ring_buffer_flag_overwrite, ring_buffer_flag_discard, ring_buffer_flag_consume_on_error, sC7val, sC8val, sFullval]
  · simp [mkRB, runOps, runOp, traceC7, traceC8, traceFull, ring_buffer_init, ring_buffer_reserve, ring_buffer_consume, ring_buffer_commit, _ring_buffer_reserve_empty, _ring_buffer_reserve_none_empty, _ring_buffer_reserve_overwrite, _ring_buffer_insert_new_node, _ring_buffer_update_time_for_new_node, _ring_buffer_overwrite_walk, _ring_buffer_commit_for_write, _ring_buffer_commit_for_write_confirm, _ring_buffer_commit_for_write_discard, _ring_buffer_commit_for_consume, _ring_buffer_commit_for_consume_confirm, _ring_buffer_commit_for_consume_discard, _ring_buffer_delete_node, _ring_buffer_remove_tail, _ring_buffer_remove_head, _ring_buffer_remove_node_chain_pos, _ring_buffer_reinit, _ring_buffer_node_cost, ring_buffer_heap_cost, ring_buffer_node_cost, ALIGN_SIZE, sizeof_ring_buffer_node, sizeof_struct_ring_buffer, usub64, UINT64, hget, hset, hlen, junk_rb, junk_node, ring_buffer_flag_overwrite, ring_buffer_flag_discard, ring_buffer_flag_consume_on_error, sC7val, sC8val, sFullval]

/-! ### Claim theorems -/

/-- Claim C1: the claim states the invariant that `oldest_reserve`, when
present, is the temporally-oldest Writing or Committed node, and that
reserving into a non-empty all-Reading buffer makes `oldest_reserve` point
at the new Writing node.  The code violates both.  After `traceDD`
(reserve, confirm, reserve, confirm, consume, consume-discard) the
discarded node at offset 0 is Committed and temporally older than the node
`oldest_reserve` points at (offset 48), because the move-back branch of
consume-discard assigns the misspelled struct member (modelled by
`oldeest_reserve`); and after `traceAR` (reserve, confirm, consume,
reserve) `oldest_reserve` is absent although a Writing node sits at
offset 48. -/
theorem C1_oldest_reserve_invariant_fails :
    runOps (mkRB 96) traceDD = some sDDval
    ∧ sDDval.oldest_reserve = some 48
    ∧ (hget sDDval.nodes 0).state = ring_buffer_node_state.committed
    ∧ (hget sDDval.nodes 0).p_newer = some 48
    ∧ sDDval.oldeest_reserve = some 0
    ∧ runOps (mkRB 96) traceAR = some sARval
    ∧ sARval.oldest_reserve = none
    ∧ (hget sARval.nodes 48).state = ring_buffer_node_state.writing := by
  refine ⟨?_, by decide, by decide, by decide, by decide, ?_, by decide,
    by decide⟩
  · simp [mkRB, runOps, runOp, traceDD, traceAR, traceC2, traceC4, traceC5, traceC7, traceC8, traceC9, traceFull, ring_buffer_init, ring_buffer_reserve, ring_buffer_consume, ring_buffer_commit, _ring_buffer_reserve_empty, _ring_buffer_reserve_none_empty, _ring_buffer_reserve_overwrite, _ring_buffer_insert_new_node, _ring_buffer_update_time_for_new_node, _ring_buffer_overwrite_walk, _ring_buffer_commit_for_write, _ring_buffer_commit_for_write_confirm, _ring_buffer_commit_for_write_discard, _ring_buffer_commit_for_consume, _ring_buffer_commit_for_consume_confirm, _ring_buffer_commit_for_consume_discard, _ring_buffer_delete_node, _ring_buffer_remove_tail, _ring_buffer_remove_head, _ring_buffer_remove_node_chain_pos, _ring_buffer_reinit, _ring_buffer_node_cost, ring_buffer_heap_cost, ring_buffer_node_cost, ALIGN_SIZE, sizeof_ring_buffer_node, sizeof_struct_ring_buffer, usub64, UINT64, hget, hset, hlen, junk_rb, junk_node, ring_buffer_flag_overwrite, ring_buffer_flag_discard, ring_buffer_flag_consume_on_error, sDDval, sARval, sC2val, sC4val, sC5val, sC7val, sC8val, sFullval, sC9val, s96val]
  · simp [mkRB, runOps, runOp, traceDD, traceAR, traceC2, traceC4, traceC5, traceC7, traceC8, traceC9, traceFull, ring_buffer_init, ring_buffer_reserve, ring_buffer_consume, ring_buffer_commit, _ring_buffer_reserve_empty, _ring_buffer_reserve_none_empty, _ring_buffer_reserve_overwrite, _ring_buffer_insert_new_node, _ring_buffer_update_time_for_new_node, _ring_buffer_overwrite_walk, _ring_buffer_commit_for_write, _ring_buffer_commit_for_write_confirm, _ring_buffer_commit_for_write_discard, _ring_buffer_commit_for_consume, _ring_buffer_commit_for_consume_confirm, _ring_buffer_commit_for_consume_discard, _ring_buffer_delete_node, _ring_buffer_remove_tail, _ring_buffer_remove_head, _ring_buffer_remove_node_chain_pos, _ring_buffer_reinit, _ring_buffer_node_cost, ring_buffer_heap_cost, ring_buffer_node_cost, ALIGN_SIZE, sizeof_ring_buffer_node, sizeof_struct_ring_buffer, usub64, UINT64, hget, hset, hlen, junk_rb, junk_node, ring_buffer_flag_overwrite, ring_buffer_flag_discard, ring_buffer_flag_consume_on_error, sDDval, sARval, sC2val, sC4val, sC5val, sC7val, sC8val, sFullval, sC9val, s96val]

/-- Claim C2: the claim states that the records returned by consume, in
order, are exactly the write-confirmed records minus those evicted by
overwrite.  After `traceC2` the third consume returns the record created by
the overwrite reserve (ghost uid 3), which was never write-confirmed: the
eviction path of `_ring_buffer_reserve_overwrite` leaves the reused node's
state `committed` instead of setting it to `writing`, so consume hands the
record out while its producer is still writing it.  The consumed sequence
is `[1, 2, 3]` while the confirmed-minus-evicted sequence is `[1, 2]`. -/
theorem C2_consume_returns_unconfirmed_record :
    runOps (mkRB 144) traceC2 = some sC2val
    ∧ sC2val.consumedH = [1, 2, 3]
    ∧ sC2val.confirmedH = [0, 1, 2]
    ∧ sC2val.evictedH = [0]
    ∧ List.filter (fun u => !(List.contains sC2val.evictedH u)) sC2val.confirmedH
        = [1, 2]
    ∧ sC2val.consumedH
        ≠ List.filter (fun u => !(List.contains sC2val.evictedH u))
            sC2val.confirmedH
    ∧ List.contains sC2val.confirmedH 3 = false := by
  refine ⟨?_, by decide, by decide, by decide, by decide, by decide, by decide⟩
  simp [mkRB, runOps, runOp, traceDD, traceAR, traceC2, traceC4, traceC5, traceC7, traceC8, traceC9, traceFull, ring_buffer_init, ring_buffer_reserve, ring_buffer_consume, ring_buffer_commit, _ring_buffer_reserve_empty, _ring_buffer_reserve_none_empty, _ring_buffer_reserve_overwrite, _ring_buffer_insert_new_node, _ring_buffer_update_time_for_new_node, _ring_buffer_overwrite_walk, _ring_buffer_commit_for_write, _ring_buffer_commit_for_write_confirm, _ring_buffer_commit_for_write_discard, _ring_buffer_commit_for_consume, _ring_buffer_commit_for_consume_confirm, _ring_buffer_commit_for_consume_discard, _ring_buffer_delete_node, _ring_buffer_remove_tail, _ring_buffer_remove_head, _ring_buffer_remove_node_chain_pos, _ring_buffer_reinit, _ring_buffer_node_cost, ring_buffer_heap_cost, ring_buffer_node_cost, ALIGN_SIZE, sizeof_ring_buffer_node, sizeof_struct_ring_buffer, usub64, UINT64, hget, hset, hlen, junk_rb, junk_node, ring_buffer_flag_overwrite, ring_buffer_flag_discard, ring_buffer_flag_consume_on_error, sDDval, sARval, sC2val, sC4val, sC5val, sC7val, sC8val, sFullval, sC9val, s96val]

/-- Claim C3: the claim states that a legal consume-discard restores the
node to Committed, moves `oldest_reserve` back to it, and the next consume
re-yields it.  After `traceDD` the node at offset 0 is Committed again, but
the move-back assigned the misspelled member (`oldeest_reserve` is
`some 0` while `oldest_reserve` stays `some 48`), so the next consume
returns the newer node at offset 48, not the discarded node at offset 0. -/
theorem C3_discard_does_not_restore_oldest_reserve :
    runOps (mkRB 96) traceDD = some sDDval
    ∧ (hget sDDval.nodes 0).state = ring_buffer_node_state.committed
    ∧ sDDval.oldest_reserve = some 48
    ∧ sDDval.oldeest_reserve = some 0
    ∧ (ring_buffer_consume sDDval).1 = some (48, 0) := by
  refine ⟨?_, by decide, by decide, by decide, by decide⟩
  simp [mkRB, runOps, runOp, traceDD, traceAR, traceC2, traceC4, traceC5, traceC7, traceC8, traceC9, traceFull, ring_buffer_init, ring_buffer_reserve, ring_buffer_consume, ring_buffer_commit, _ring_buffer_reserve_empty, _ring_buffer_reserve_none_empty, _ring_buffer_reserve_overwrite, _ring_buffer_insert_new_node, _ring_buffer_update_time_for_new_node, _ring_buffer_overwrite_walk, _ring_buffer_commit_for_write, _ring_buffer_commit_for_write_confirm, _ring_buffer_commit_for_write_discard, _ring_buffer_commit_for_consume, _ring_buffer_commit_for_consume_confirm, _ring_buffer_commit_for_consume_discard, _ring_buffer_delete_node, _ring_buffer_remove_tail, _ring_buffer_remove_head, _ring_buffer_remove_node_chain_pos, _ring_buffer_reinit, _ring_buffer_node_cost, ring_buffer_heap_cost, ring_buffer_node_cost, ALIGN_SIZE, sizeof_ring_buffer_node, sizeof_struct_ring_buffer, usub64, UINT64, hget, hset, hlen, junk_rb, junk_node, ring_buffer_flag_overwrite, ring_buffer_flag_discard, ring_buffer_flag_consume_on_error, sDDval, sARval, sC2val, sC4val, sC5val, sC7val, sC8val, sFullval, sC9val, s96val]

/-- Claim C4: the claim states that consume-discard without
`CONSUME_ON_ERROR` returns a non-zero error exactly when some
temporally-newer node is Reading.  After `traceC4` the node at offset 0 is
Reading, the node at offset 96 is temporally newer (newer chain
0 → 48 → 96) and Reading, yet committing the token at offset 0 with the
`DISCARD` flag alone returns 0: the code checks only the immediate
time-newer neighbour (offset 48, Committed here — a configuration itself
only reachable through the misspelled-member slip). -/
theorem C4_discard_succeeds_despite_newer_reader :
    runOps (mkRB 144) traceC4 = some sC4val
    ∧ (hget sC4val.nodes 0).state = ring_buffer_node_state.reading
    ∧ (hget sC4val.nodes 0).p_newer = some 48
    ∧ (hget sC4val.nodes 48).p_newer = some 96
    ∧ (hget sC4val.nodes 48).state = ring_buffer_node_state.committed
    ∧ (hget sC4val.nodes 96).state = ring_buffer_node_state.reading
    ∧ Option.map Prod.fst (ring_buffer_commit sC4val 0 ring_buffer_flag_discard)
        = some 0 := by
  refine ⟨?_, by decide, by decide, by decide, by decide, by decide, by decide⟩
  simp [mkRB, runOps, runOp, traceDD, traceAR, traceC2, traceC4, traceC5, traceC7, traceC8, traceC9, traceFull, ring_buffer_init, ring_buffer_reserve, ring_buffer_consume, ring_buffer_commit, _ring_buffer_reserve_empty, _ring_buffer_reserve_none_empty, _ring_buffer_reserve_overwrite, _ring_buffer_insert_new_node, _ring_buffer_update_time_for_new_node, _ring_buffer_overwrite_walk, _ring_buffer_commit_for_write, _ring_buffer_commit_for_write_confirm, _ring_buffer_commit_for_write_discard, _ring_buffer_commit_for_consume, _ring_buffer_commit_for_consume_confirm, _ring_buffer_commit_for_consume_discard, _ring_buffer_delete_node, _ring_buffer_remove_tail, _ring_buffer_remove_head, _ring_buffer_remove_node_chain_pos, _ring_buffer_reinit, _ring_buffer_node_cost, ring_buffer_heap_cost, ring_buffer_node_cost, ALIGN_SIZE, sizeof_ring_buffer_node, sizeof_struct_ring_buffer, usub64, UINT64, hget, hset, hlen, junk_rb, junk_node, ring_buffer_flag_overwrite, ring_buffer_flag_discard, ring_buffer_flag_consume_on_error, sDDval, sARval, sC2val, sC4val, sC5val, sC7val, sC8val, sFullval, sC9val, s96val]

/-- Claim C5, counterexample: the claim describes every successful overwrite
through the absorbing walk and asserts that the run is evicted and reused
exactly when the walk ends with accumulated size ≥ node_size, and that
otherwise reserve returns absent.  After `traceC5` the buffer holds a sole
Committed node at offset 48, both free gaps are smaller than the requested
88 bytes, and the walk accumulates only 48 < 88 — so the claim predicts the
reserve fails — yet the source's sole-node shortcut (RingBuffer.c lines
125-134) tests `capacity ≥ node_size` instead, resets the buffer, and
succeeds with a token at offset 0 and `lost` incremented. -/
theorem C5_counterexample_sole_node :
    runOps (mkRB 96) traceC5 = some sC5val
    ∧ sC5val.oldest_reserve = some 48
    ∧ (hget sC5val.nodes 48).state = ring_buffer_node_state.committed
    ∧ _ring_buffer_node_cost 40 = 88
    ∧ usub64 sC5val.capacity (48 + _ring_buffer_node_cost (hget sC5val.nodes 48).len) < 88
    ∧ (hget sC5val.nodes 48).p_forward < 88
    ∧ (_ring_buffer_overwrite_walk sC5val.nodes 88 (hlen sC5val.nodes + 1)
        48 0 1 [48]).2.1 = 48
    ∧ (48 : Nat) < 88
    ∧ Option.map Prod.fst (ring_buffer_reserve sC5val 40 ring_buffer_flag_overwrite)
        = some (some 0)
    ∧ Option.map (fun p => p.2.lost)
        (ring_buffer_reserve sC5val 40 ring_buffer_flag_overwrite)
        = some (sC5val.lost + 1) := by
  refine ⟨?_, by decide, by decide, by decide, by decide, by decide, by decide,
    by decide, by decide, by decide⟩
  simp [mkRB, runOps, runOp, traceDD, traceAR, traceC2, traceC4, traceC5, traceC7, traceC8, traceC9, traceFull, ring_buffer_init, ring_buffer_reserve, ring_buffer_consume, ring_buffer_commit, _ring_buffer_reserve_empty, _ring_buffer_reserve_none_empty, _ring_buffer_reserve_overwrite, _ring_buffer_insert_new_node, _ring_buffer_update_time_for_new_node, _ring_buffer_overwrite_walk, _ring_buffer_commit_for_write, _ring_buffer_commit_for_write_confirm, _ring_buffer_commit_for_write_discard, _ring_buffer_commit_for_consume, _ring_buffer_commit_for_consume_confirm, _ring_buffer_commit_for_consume_discard, _ring_buffer_delete_node, _ring_buffer_remove_tail, _ring_buffer_remove_head, _ring_buffer_remove_node_chain_pos, _ring_buffer_reinit, _ring_buffer_node_cost, ring_buffer_heap_cost, ring_buffer_node_cost, ALIGN_SIZE, sizeof_ring_buffer_node, sizeof_struct_ring_buffer, usub64, UINT64, hget, hset, hlen, junk_rb, junk_node, ring_buffer_flag_overwrite, ring_buffer_flag_discard, ring_buffer_flag_consume_on_error, sDDval, sARval, sC2val, sC4val, sC5val, sC7val, sC8val, sFullval, sC9val, s96val]

/-- Claim C5, amended: a complete characterisation of
`_ring_buffer_reserve_overwrite`.  It fails, changing nothing, when
`oldest_reserve` is absent or not Committed.  When `oldest_reserve` is the
sole node, no walk happens: the buffer resets and the new record is placed
at the cache base exactly when `capacity ≥ node_size`.  Otherwise the walk
absorbs position-successors while the accumulated size is below
`node_size`, the successor is Committed, coincides with the time-newer link
and lies at a higher address; if the walk ends below `node_size` the
reserve fails with nothing changed; if it ends at or above `node_size` but
the run has reached HEAD the source dereferences `NULL` (undefined
behaviour, `none` in the model); and otherwise the run is evicted:
`oldest_reserve` advances past the run, the start of the run is returned
as the token with the new length and becomes HEAD, `lost` grows by the run
length, and the run's uids are recorded evicted — while `TAIL` is left
untouched. -/
theorem C5_overwrite_characterization (rb : RB) (l ns : Nat) :
    (rb.oldest_reserve = none →
      _ring_buffer_reserve_overwrite rb l ns = some (none, rb))
    ∧ (∀ orf, rb.oldest_reserve = some orf →
        (hget rb.nodes orf).state ≠ ring_buffer_node_state.committed →
        _ring_buffer_reserve_overwrite rb l ns = some (none, rb))
    ∧ (∀ orf, rb.oldest_reserve = some orf →
        (hget rb.nodes orf).state = ring_buffer_node_state.committed →
        (hget rb.nodes orf).p_forward = orf →
        (hget rb.nodes orf).p_backward = orf →
        ((ns ≤ rb.capacity →
            Option.map Prod.fst (_ring_buffer_reserve_overwrite rb l ns)
              = some (some 0)
            ∧ Option.map (fun p => p.2.lost)
                (_ring_buffer_reserve_overwrite rb l ns) = some (rb.lost + 1)
            ∧ Option.map (fun p => p.2.evictedH)
                (_ring_buffer_reserve_overwrite rb l ns)
              = some (rb.evictedH ++ [(hget rb.nodes orf).uid])
            ∧ Option.map (fun p => (hget p.2.nodes 0).state)
                (_ring_buffer_reserve_overwrite rb l ns)
              = some ring_buffer_node_state.writing
            ∧ Option.map (fun p => (hget p.2.nodes 0).len)
                (_ring_buffer_reserve_overwrite rb l ns) = some l)
          ∧ (rb.capacity < ns →
              _ring_buffer_reserve_overwrite rb l ns = some (none, rb))))
    ∧ (∀ orf, rb.oldest_reserve = some orf →
        (hget rb.nodes orf).state = ring_buffer_node_state.committed →
        ¬((hget rb.nodes orf).p_forward = orf
          ∧ (hget rb.nodes orf).p_backward = orf) →
        (((_ring_buffer_overwrite_walk rb.nodes ns (hlen rb.nodes + 1)
              orf 0 1 [orf]).2.1 < ns →
            _ring_buffer_reserve_overwrite rb l ns = some (none, rb))
          ∧ (ns ≤ (_ring_buffer_overwrite_walk rb.nodes ns (hlen rb.nodes + 1)
                orf 0 1 [orf]).2.1 →
              (hget rb.nodes (_ring_buffer_overwrite_walk rb.nodes ns
                (hlen rb.nodes + 1) orf 0 1 [orf]).1).p_newer = none →
              _ring_buffer_reserve_overwrite rb l ns = none)
          ∧ (∀ nx hd,
              ns ≤ (_ring_buffer_overwrite_walk rb.nodes ns (hlen rb.nodes + 1)
                orf 0 1 [orf]).2.1 →
              (hget rb.nodes (_ring_buffer_overwrite_walk rb.nodes ns
                (hlen rb.nodes + 1) orf 0 1 [orf]).1).p_newer = some nx →
              rb.HEAD = some hd →
              Option.map Prod.fst (_ring_buffer_reserve_overwrite rb l ns)
                = some (some orf)
              ∧ Option.map (fun p => p.2.oldest_reserve)
                  (_ring_buffer_reserve_overwrite rb l ns) = some (some nx)
              ∧ Option.map (fun p => p.2.lost)
                  (_ring_buffer_reserve_overwrite rb l ns)
                = some (rb.lost
                    + (_ring_buffer_overwrite_walk rb.nodes ns
                        (hlen rb.nodes + 1) orf 0 1 [orf]).2.2.1)
              ∧ Option.map (fun p => p.2.evictedH)
                  (_ring_buffer_reserve_overwrite rb l ns)
                = some (rb.evictedH
                    ++ List.map (fun o => (hget rb.nodes o).uid)
                        (_ring_buffer_overwrite_walk rb.nodes ns
                          (hlen rb.nodes + 1) orf 0 1 [orf]).2.2.2)
              ∧ Option.map (fun p => p.2.HEAD)
                  (_ring_buffer_reserve_overwrite rb l ns) = some (some orf)
              ∧ Option.map (fun p => p.2.TAIL)
                  (_ring_buffer_reserve_overwrite rb l ns) = some rb.TAIL
              ∧ Option.map (fun p => (hget p.2.nodes orf).len)
                  (_ring_buffer_reserve_overwrite rb l ns) = some l))) := by
  refine ⟨?_, ?_, ?_, ?_⟩
  · intro h
    exact overwrite_no_reserve rb l ns h
  · intro orf h1 h2
    exact overwrite_not_committed rb l ns orf h1 h2
  · intro orf h1 h2 h3 h4
    constructor
    · intro h5
      rw [overwrite_sole_fits rb l ns orf h1 h2 h3 h4 h5]
      refine ⟨rfl, rfl, rfl, ?_, ?_⟩
      · simp only [Option.map_some']
        rw [hget_hset_self]
      · simp only [Option.map_some']
        rw [hget_hset_self]
    · intro h5
      exact overwrite_sole_nofit rb l ns orf h1 h2 h3 h4 h5
  · intro orf h1 h2 h3
    refine ⟨?_, ?_, ?_⟩
    · intro h4
      exact overwrite_run_short rb l ns orf h1 h2 h3 h4
    · intro h4 h5
      exact overwrite_run_hits_head rb l ns orf h1 h2 h3 h4 h5
    · intro nx hd h4 h5 h6
      obtain ⟨rb', hR, s1, s2, s3, s4, s5, s6, s7, s8, s9, s10f, s11⟩ :=
        overwrite_run_success rb l ns orf nx hd h1 h2 h3 h4 h5 h6
      rw [hR]
      exact ⟨by simp, by simp [s1], by simp [s5], by simp [s6], by simp [s2],
        by simp [s3], by simp [s10f]⟩

/-- Claim C5, witness: the characterisation applied to the concrete
three-record state `sFullval`, where the walk from the oldest record
(offset 0) immediately satisfies the size bound: the overwrite reserve
evicts it, returns its slot as the token, advances `oldest_reserve` to
offset 48 and counts one lost record. -/
theorem C5_witness :
    Option.map Prod.fst (_ring_buffer_reserve_overwrite sFullval 0 48)
      = some (some 0)
    ∧ Option.map (fun p => p.2.oldest_reserve)
        (_ring_buffer_reserve_overwrite sFullval 0 48) = some (some 48)
    ∧ Option.map (fun p => p.2.lost)
        (_ring_buffer_reserve_overwrite sFullval 0 48)
      = some (sFullval.lost
          + (_ring_buffer_overwrite_walk sFullval.nodes 48
              (hlen sFullval.nodes + 1) 0 0 1 [0]).2.2.1) :=
  have h := ((C5_overwrite_characterization sFullval 0 48).2.2.2 0
    (by decide) (by decide) (by decide)).2.2 48 96 (by decide) (by decide)
    (by decide)
  ⟨h.1, h.2.1, h.2.2.1⟩

/-- Claim C6, counterexample: the claim states that `init` on a region of
exactly `heap_cost() + node_cost(0) - 1` bytes returns an absent handle,
and more generally that `init` succeeds only when the region also fits one
minimum-size node.  That boundary size is 95, and `init` on an aligned
95-byte region succeeds (the source only checks
`leading_align + heap_cost < size`). -/
theorem C6_counterexample_init_boundary :
    ring_buffer_heap_cost + ring_buffer_node_cost 0 - 1 = 95
    ∧ (ring_buffer_init 0 95).isSome = true := by
  decide

/-- Claim C6, amended: `init` succeeds exactly when the region holds the
aligned header with at least one spare byte — `leading + heap_cost < size` —
and the resulting capacity is everything after the header.  No room for a
node is required; when the capacity is below `node_cost(0)`, every
subsequent reserve fails with the buffer unchanged. -/
theorem C6_init_characterization (addr size : Nat) :
    ((ring_buffer_init addr size).isSome
      ↔ ALIGN_SIZE addr 8 - addr + ring_buffer_heap_cost < size)
    ∧ (∀ rb, ring_buffer_init addr size = some rb →
        rb.capacity = size - (ALIGN_SIZE addr 8 - addr) - ring_buffer_heap_cost
        ∧ (rb.capacity < ring_buffer_node_cost 0 →
            ∀ l f, ring_buffer_reserve rb l f = some (none, rb))) := by
  constructor
  · simp only [ring_buffer_init]
    split
    · next hge =>
      simp only [Option.isSome_none, Bool.false_eq_true, false_iff]
      omega
    · next hlt =>
      simp only [Option.isSome_some, true_iff]
      omega
  · intro rb h
    simp only [ring_buffer_init] at h
    split at h
    · exact Option.noConfusion h
    · simp only [_ring_buffer_reinit, Option.some.injEq] at h
      rw [← h]
      refine ⟨rfl, ?_⟩
      intro hcap l f
      have hmono := node_cost_zero_le l
      simp only at hcap
      simp only [ring_buffer_reserve, _ring_buffer_reserve_empty]
      rw [if_pos (by omega)]

/-- Claim C6, witness: the characterisation applied to an aligned region of
95 bytes — the very boundary size of the counterexample: `init` succeeds,
the capacity is the 47 bytes after the header, which is below
`node_cost(0) = 48`, so a reserve of even 0 bytes fails with the buffer
unchanged. -/
theorem C6_witness :
    (mkRB 47).capacity = 95 - (ALIGN_SIZE 0 8 - 0) - ring_buffer_heap_cost
    ∧ (mkRB 47).capacity < ring_buffer_node_cost 0
    ∧ ring_buffer_reserve (mkRB 47) 0 0 = some (none, mkRB 47) :=
  have h := (C6_init_characterization 0 95).2 (mkRB 47) (by decide)
  ⟨h.1, by decide, h.2 (by decide) 0 0⟩

/-- Claim C7: on a non-empty buffer whose HEAD's position-forward neighbour
lies at a strictly lower address (the wrap point sits between HEAD and its
successor), reserve places the new node in the tail region after HEAD when
`capacity - (HEAD + size(HEAD))` fits the new node's size, otherwise at the
cache base (offset 0) when the head region up to HEAD's successor fits it,
and otherwise falls through to overwrite when the `OVERWRITE` flag is set
and fails with the buffer unchanged when not. -/
theorem C7_wrap_placement (rb : RB) (l flags h t : Nat)
    (hT : rb.TAIL = some t) (hH : rb.HEAD = some h)
    (hpf : (hget rb.nodes h).p_forward < h) :
    (_ring_buffer_node_cost l
        ≤ usub64 rb.capacity (h + _ring_buffer_node_cost (hget rb.nodes h).len) →
      Option.map Prod.fst (ring_buffer_reserve rb l flags)
        = some (some (h + _ring_buffer_node_cost (hget rb.nodes h).len))
      ∧ Option.map (fun p => p.2.HEAD) (ring_buffer_reserve rb l flags)
        = some (some (h + _ring_buffer_node_cost (hget rb.nodes h).len))
      ∧ Option.map
          (fun p => (hget p.2.nodes
            (h + _ring_buffer_node_cost (hget rb.nodes h).len)).state)
          (ring_buffer_reserve rb l flags)
        = some ring_buffer_node_state.writing
      ∧ Option.map
          (fun p => (hget p.2.nodes
            (h + _ring_buffer_node_cost (hget rb.nodes h).len)).len)
          (ring_buffer_reserve rb l flags) = some l)
    ∧ (usub64 rb.capacity (h + _ring_buffer_node_cost (hget rb.nodes h).len)
          < _ring_buffer_node_cost l →
        _ring_buffer_node_cost l ≤ (hget rb.nodes h).p_forward →
        Option.map Prod.fst (ring_buffer_reserve rb l flags) = some (some 0)
        ∧ Option.map (fun p => p.2.HEAD) (ring_buffer_reserve rb l flags)
          = some (some 0)
        ∧ Option.map (fun p => (hget p.2.nodes 0).state)
            (ring_buffer_reserve rb l flags)
          = some ring_buffer_node_state.writing
        ∧ Option.map (fun p => (hget p.2.nodes 0).len)
            (ring_buffer_reserve rb l flags) = some l)
    ∧ (usub64 rb.capacity (h + _ring_buffer_node_cost (hget rb.nodes h).len)
          < _ring_buffer_node_cost l →
        (hget rb.nodes h).p_forward < _ring_buffer_node_cost l →
        ring_buffer_reserve rb l flags
          = (if flags &&& ring_buffer_flag_overwrite ≠ 0
              then _ring_buffer_reserve_overwrite rb l (_ring_buffer_node_cost l)
              else some (none, rb))) := by
  have hred : ring_buffer_reserve rb l flags
      = _ring_buffer_reserve_none_empty rb l (_ring_buffer_node_cost l) flags := by
    simp only [ring_buffer_reserve, hT]
  refine ⟨?_, ?_, ?_⟩
  · intro h1
    rw [hred]
    simp only [_ring_buffer_reserve_none_empty, hH]
    rw [if_neg (by omega)]
    rw [if_pos h1]
    obtain ⟨rb', hins⟩ := insert_some rb
      (h + _ring_buffer_node_cost (hget rb.nodes h).len) l h hH
    rw [hins]
    obtain ⟨f1, f2, f3, f4, f5, f6, f7, f8, f9, f10, f11⟩ :=
      insert_new_node_spec rb (h + _ring_buffer_node_cost (hget rb.nodes h).len)
        l rb' hins
    exact ⟨by simp, by simp [f5], by simp [f10], by simp [f11]⟩
  · intro h1 h2
    rw [hred]
    simp only [_ring_buffer_reserve_none_empty, hH]
    rw [if_neg (by omega)]
    rw [if_neg (by omega)]
    rw [if_pos h2]
    obtain ⟨rb', hins⟩ := insert_some rb 0 l h hH
    rw [hins]
    obtain ⟨f1, f2, f3, f4, f5, f6, f7, f8, f9, f10, f11⟩ :=
      insert_new_node_spec rb 0 l rb' hins
    exact ⟨by simp, by simp [f5], by simp [f10], by simp [f11]⟩
  · intro h1 h2
    rw [hred]
    simp only [_ring_buffer_reserve_none_empty, hH]
    rw [if_neg (by omega)]
    rw [if_neg (by omega)]
    rw [if_neg (by omega)]

/-- Claim C7, witness: the placement applied to the concrete wrap state
`sC7val` (HEAD at offset 96, its position successor at offset 48, tail
region empty, head region `[0, 48)` free): a 0-byte reserve lands at the
cache base, offset 0, as a Writing node of length 0. -/
theorem C7_witness :
    Option.map Prod.fst (ring_buffer_reserve sC7val 0 0) = some (some 0)
    ∧ Option.map (fun p => p.2.HEAD) (ring_buffer_reserve sC7val 0 0)
      = some (some 0)
    ∧ Option.map (fun p => (hget p.2.nodes 0).state)
        (ring_buffer_reserve sC7val 0 0) = some ring_buffer_node_state.writing
    ∧ Option.map (fun p => (hget p.2.nodes 0).len)
        (ring_buffer_reserve sC7val 0 0) = some 0 :=
  (C7_wrap_placement sC7val 0 0 96 48 (by decide) (by decide) (by decide)).2.1
    (by decide) (by decide)

/-- Claim C9, counterexample: the claim states that `foreach` returns the
count of nodes on which the visitor was invoked.  On the one-node buffer
`sC9val` with an always-negative visitor, the visitor is invoked on exactly
one node, yet `foreach` returns 0: the `break` in the source (RingBuffer.c
lines 489-492) skips the loop's increment for the node that stopped the
walk. -/
theorem C9_counterexample_negative_visitor :
    runOps (mkRB 96) traceC9 = some sC9val
    ∧ timeChainFrom sC9val.nodes sC9val.TAIL [0]
    ∧ foreach_invocation_count sC9val.nodes (fun _ _ => -1) [0] = 1
    ∧ ring_buffer_foreach sC9val (fun _ _ => -1) = some 0 := by
  refine ⟨?_, by decide, by decide, by decide⟩
  simp [mkRB, runOps, runOp, traceC9, ring_buffer_init, ring_buffer_reserve,
    _ring_buffer_reserve_empty, _ring_buffer_reinit, _ring_buffer_node_cost,
    ring_buffer_heap_cost, ALIGN_SIZE, sizeof_ring_buffer_node,
    sizeof_struct_ring_buffer, hset, junk_rb, junk_node, sC9val]

/-- Claim C9, amended: `foreach` walks the time chain from TAIL following
`time_newer`, invokes the visitor on each node, stops at the first negative
visitor return, and returns the number of nodes whose visit returned a
non-negative value — one less than the number of invocations whenever the
visitor stopped the walk. -/
theorem C9_foreach_counts_nonnegative_visits (rb : RB)
    (cb : Nat → ring_buffer_node_state → Int) (l : List Nat)
    (hc : timeChainFrom rb.nodes rb.TAIL l)
    (hf : List.length l ≤ hlen rb.nodes) :
    ring_buffer_foreach rb cb = some (foreach_nonneg_count rb.nodes cb l) := by
  have h := foreach_go_spec rb.nodes cb l rb.TAIL 0 (hlen rb.nodes) hc hf
  simpa [ring_buffer_foreach] using h

/-- Claim C9, witness: the amended statement applied to the one-node buffer
and the always-negative visitor: `foreach` returns the number of
non-negative visits, 0. -/
theorem C9_witness :
    ring_buffer_foreach sC9val (fun _ _ => -1)
      = some (foreach_nonneg_count sC9val.nodes (fun _ _ => -1) [0]) :=
  C9_foreach_counts_nonnegative_visits sC9val (fun _ _ => -1) [0]
    (by decide) (by decide)

/-- Claim C10: whenever reserve or consume fails — returns an absent
token — the whole buffer state is unchanged: header fields, counters, every
node and the ghost histories are exactly as before the call (the two sides
of the equality are entire buffer states). -/
theorem C10_failed_calls_change_nothing (rb : RB) :
    (∀ l f rb', ring_buffer_reserve rb l f = some (none, rb') → rb' = rb)
    ∧ (∀ rb', ring_buffer_consume rb = (none, rb') → rb' = rb) := by
  constructor
  · intro l f rb' h
    cases hT : rb.TAIL with
    | none =>
      simp only [ring_buffer_reserve, hT, _ring_buffer_reserve_empty] at h
      split at h
      · simp only [Option.some.injEq, Prod.mk.injEq] at h
        exact h.2.symm
      · simp at h
    | some t =>
      simp only [ring_buffer_reserve, hT] at h
      cases hH : rb.HEAD with
      | none =>
        simp only [_ring_buffer_reserve_none_empty, hH] at h
        exact Option.noConfusion h
      | some hd =>
        simp only [_ring_buffer_reserve_none_empty, hH] at h
        split at h
        · split at h
          · split at h
            · exact Option.noConfusion h
            · simp at h
          · split at h
            · exact overwrite_none_frame rb l _ rb' h
            · simp only [Option.some.injEq, Prod.mk.injEq] at h
              exact h.2.symm
        · split at h
          · split at h
            · exact Option.noConfusion h
            · simp at h
          · split at h
            · split at h
              · exact Option.noConfusion h
              · simp at h
            · split at h
              · exact overwrite_none_frame rb l _ rb' h
              · simp only [Option.some.injEq, Prod.mk.injEq] at h
                exact h.2.symm
  · intro rb' h
    cases hor : rb.oldest_reserve with
    | none =>
      simp only [ring_buffer_consume, hor] at h
      simp only [Prod.mk.injEq] at h
      exact h.2.symm
    | some orf =>
      simp only [ring_buffer_consume, hor] at h
      split at h
      · simp only [Prod.mk.injEq] at h
        exact h.2.symm
      · simp at h

/-- Claim C10, witness: a failed reserve (request of 1000 bytes on a
96-byte cache) and a failed consume (empty buffer) on the freshly
initialised buffer both return it unchanged. -/
theorem C10_witness :
    mkRB 96 = s96val
    ∧ ((ring_buffer_reserve s96val 1000 0).getD (none, junk_rb)).2 = s96val
    ∧ (ring_buffer_consume s96val).2 = s96val :=
  ⟨by decide,
   (C10_failed_calls_change_nothing s96val).1 1000 0
     ((ring_buffer_reserve s96val 1000 0).getD (none, junk_rb)).2 (by decide),
   (C10_failed_calls_change_nothing s96val).2
     (ring_buffer_consume s96val).2 (by decide)⟩

/-- Claim C8: the `lost` accounting.  Any reserve extends the ghost eviction
history by exactly the evicted records and increments `lost` by exactly
their number (zero when nothing is evicted, in particular whenever the
reserve fails); a consume that returns a token reports the current `lost`
through the out-parameter and resets `lost` to 0; a failed consume changes
nothing; and no commit — confirm or discard, write or consume side — ever
changes `lost` or the eviction history. -/
theorem C8_lost_accounting (rb : RB) :
    (∀ l f tok rb', ring_buffer_reserve rb l f = some (tok, rb') →
      ∃ e, rb'.evictedH = rb.evictedH ++ e
        ∧ rb'.lost = rb.lost + List.length e
        ∧ (tok = none → e = []))
    ∧ (∀ tk lo rb', ring_buffer_consume rb = (some (tk, lo), rb') →
        lo = rb.lost ∧ rb'.lost = 0 ∧ rb'.evictedH = rb.evictedH)
    ∧ ((ring_buffer_consume rb).1 = none → (ring_buffer_consume rb).2 = rb)
    ∧ (∀ o f r rb', ring_buffer_commit rb o f = some (r, rb') →
        rb'.lost = rb.lost ∧ rb'.evictedH = rb.evictedH) := by
  refine ⟨?_, ?_, ?_, ?_⟩
  · intro l f tok rb' h
    cases hT : rb.TAIL with
    | none =>
      simp only [ring_buffer_reserve, hT, _ring_buffer_reserve_empty] at h
      split at h
      · simp only [Option.some.injEq, Prod.mk.injEq] at h
        refine ⟨[], ?_, ?_, fun _ => rfl⟩
        · rw [← h.2]
          simp
        · rw [← h.2]
          simp
      · simp only [Option.some.injEq, Prod.mk.injEq] at h
        refine ⟨[], ?_, ?_, fun _ => rfl⟩
        · rw [← h.2]
          simp
        · rw [← h.2]
          simp
    | some t =>
      simp only [ring_buffer_reserve, hT] at h
      cases hH : rb.HEAD with
      | none =>
        simp only [_ring_buffer_reserve_none_empty, hH] at h
        exact Option.noConfusion h
      | some hd =>
        simp only [_ring_buffer_reserve_none_empty, hH] at h
        split at h
        · split at h
          · split at h
            · exact Option.noConfusion h
            · rename_i rb'' hins
              simp only [Option.some.injEq, Prod.mk.injEq] at h
              obtain ⟨f1, f2, f3, f4, f5, f6, f7, f8, f9, f10, f11⟩ :=
                insert_new_node_spec rb _ l rb'' hins
              refine ⟨[], ?_, ?_, fun _ => rfl⟩
              · rw [← h.2, f9]
                simp
              · rw [← h.2, f2]
                simp
          · split at h
            · exact overwrite_ghost_accounting rb l _ tok rb' h
            · simp only [Option.some.injEq, Prod.mk.injEq] at h
              refine ⟨[], ?_, ?_, fun _ => rfl⟩
              · rw [← h.2]
                simp
              · rw [← h.2]
                simp
        · split at h
          · split at h
            · exact Option.noConfusion h
            · rename_i rb'' hins
              simp only [Option.some.injEq, Prod.mk.injEq] at h
              obtain ⟨f1, f2, f3, f4, f5, f6, f7, f8, f9, f10, f11⟩ :=
                insert_new_node_spec rb _ l rb'' hins
              refine ⟨[], ?_, ?_, fun _ => rfl⟩
              · rw [← h.2, f9]
                simp
              · rw [← h.2, f2]
                simp
          · split at h
            · split at h
              · exact Option.noConfusion h
              · rename_i rb'' hins
                simp only [Option.some.injEq, Prod.mk.injEq] at h
                obtain ⟨f1, f2, f3, f4, f5, f6, f7, f8, f9, f10, f11⟩ :=
                  insert_new_node_spec rb 0 l rb'' hins
                refine ⟨[], ?_, ?_, fun _ => rfl⟩
                · rw [← h.2, f9]
                  simp
                · rw [← h.2, f2]
                  simp
            · split at h
              · exact overwrite_ghost_accounting rb l _ tok rb' h
              · simp only [Option.some.injEq, Prod.mk.injEq] at h
                refine ⟨[], ?_, ?_, fun _ => rfl⟩
                · rw [← h.2]
                  simp
                · rw [← h.2]
                  simp
  · intro tk lo rb' h
    cases hor : rb.oldest_reserve with
    | none =>
      simp only [ring_buffer_consume, hor] at h
      simp only [Prod.mk.injEq] at h
      exact absurd h.1 (by simp)
    | some orf =>
      simp only [ring_buffer_consume, hor] at h
      split at h
      · simp only [Prod.mk.injEq] at h
        exact absurd h.1 (by simp)
      · simp only [Prod.mk.injEq, Option.some.injEq] at h
        refine ⟨h.1.2.symm, ?_, ?_⟩
        · rw [← h.2]
        · rw [← h.2]
  · intro h
    cases hor : rb.oldest_reserve with
    | none =>
      simp only [ring_buffer_consume, hor]
    | some orf =>
      simp only [ring_buffer_consume, hor] at h ⊢
      split at h
      · next hst =>
        rw [if_pos hst]
      · simp at h
  · intro o f r rb' h
    simp only [ring_buffer_commit] at h
    split at h
    · simp only [_ring_buffer_commit_for_write] at h
      split at h
      · simp only [_ring_buffer_commit_for_write_discard] at h
        cases hdel : _ring_buffer_delete_node rb o with
        | none =>
          rw [hdel] at h
          exact Option.noConfusion h
        | some rbd =>
          rw [hdel] at h
          simp only [Option.map_some', Option.some.injEq, Prod.mk.injEq] at h
          obtain ⟨d1, d2, d3, d4, d5, d6⟩ := delete_node_frame rb o rbd hdel
          rw [← h.2]
          exact ⟨d2, d6⟩
      · simp only [_ring_buffer_commit_for_write_confirm, Option.some.injEq,
          Prod.mk.injEq] at h
        rw [← h.2]
        exact ⟨rfl, rfl⟩
    · simp only [_ring_buffer_commit_for_consume] at h
      split at h
      · simp only [_ring_buffer_commit_for_consume_discard] at h
        split at h
        · split at h
          · simp only [_ring_buffer_commit_for_consume_confirm] at h
            cases hdel : _ring_buffer_delete_node rb o with
            | none =>
              rw [hdel] at h
              exact Option.noConfusion h
            | some rbd =>
              rw [hdel] at h
              simp only [Option.map_some', Option.some.injEq,
                Prod.mk.injEq] at h
              obtain ⟨d1, d2, d3, d4, d5, d6⟩ := delete_node_frame rb o rbd hdel
              rw [← h.2]
              exact ⟨d2, d6⟩
          · simp only [Option.some.injEq, Prod.mk.injEq] at h
            rw [← h.2]
            exact ⟨rfl, rfl⟩
        · split at h
          · simp only [Option.some.injEq, Prod.mk.injEq] at h
            rw [← h.2]
            exact ⟨rfl, rfl⟩
          · split at h
            · split at h
              · simp only [Option.some.injEq, Prod.mk.injEq] at h
                rw [← h.2]
                exact ⟨rfl, rfl⟩
              · simp only [Option.some.injEq, Prod.mk.injEq] at h
                rw [← h.2]
                exact ⟨rfl, rfl⟩
            · simp only [Option.some.injEq, Prod.mk.injEq] at h
              rw [← h.2]
              exact ⟨rfl, rfl⟩
      · simp only [_ring_buffer_commit_for_consume_confirm] at h
        cases hdel : _ring_buffer_delete_node rb o with
        | none =>
          rw [hdel] at h
          exact Option.noConfusion h
        | some rbd =>
          rw [hdel] at h
          simp only [Option.map_some', Option.some.injEq, Prod.mk.injEq] at h
          obtain ⟨d1, d2, d3, d4, d5, d6⟩ := delete_node_frame rb o rbd hdel
          rw [← h.2]
          exact ⟨d2, d6⟩

/-- Claim C8, witness: on the post-overwrite state `sC8val` (one record
evicted, `lost = 1`): the next consume returns a token reporting a lost
count of 1 and resets `lost` to 0 without touching the eviction history. -/
theorem C8_witness :
    sC8val.lost = 1
    ∧ (ring_buffer_consume sC8val).1 = some (48, 1)
    ∧ (ring_buffer_consume sC8val).2.lost = 0
    ∧ (ring_buffer_consume sC8val).2.evictedH = sC8val.evictedH :=
  have h := (C8_lost_accounting sC8val).2.1 48 1 (ring_buffer_consume sC8val).2
    (by decide)
  ⟨by decide, by decide, h.2.1, h.2.2⟩
